import Mathlib

/-!
Shallow embedding of the AVG aggregate-function family from
`executor/aggfuncs/func_avg.go`: per-group accumulators, original-phase and
merge-phase updates over the exact-decimal and floating domains, distinct
variants, and finalization.

The decimal arithmetic library (`types.MyDecimal`, `types.DecimalAdd`,
`types.DecimalDiv`, `types.NewDecFromInt`, `types.DivFracIncr`), the value
sets (`decimalSet`, `float64Set`), the expression-evaluation API and the
output chunk are repository code that is not part of the excerpt; they are
modelled from the spec, as indicated by their doc comments.  Everything in
`func_avg.go` itself is translated directly from the source.

Stateful Go methods that mutate the accumulator in place are embedded as
functions returning the new accumulator paired with an optional error: on an
error the accumulator returned is the one left behind by the partially
applied batch (no rollback), exactly as the in-place mutation leaves it.
-/

/-- Errors surfaced by the aggregation core: expression-evaluation failures
(spec section 7, EvaluationError) and decimal arithmetic failures
(ArithmeticError: overflow on add, division failure on divide). -/
inductive AggError where
  | evalError (code : Nat)
  | decOverflow
  | divByZero
deriving DecidableEq, Repr

/-- Modelled from the spec: the row/expression evaluation API returns a
triple (value, is-null, error); a row of input is embedded as the outcome
that evaluating one source expression against it would produce. -/
inductive EvalResult (α : Type) where
  | err (e : AggError)
  | null
  | val (v : α)
deriving DecidableEq, Repr

/-- Modelled from the spec: `types.MyDecimal`, an arbitrary-precision
fixed-point decimal.  `intVal` is the unscaled integer value and `frac` the
number of fractional digits, so the value denoted is intVal / 10 ^ frac.
The Go zero value of the struct denotes numeric zero with no fractional
digits. -/
structure MyDecimal where
  intVal : Int
  frac : Nat
deriving DecidableEq, Repr

/-- The rational value a `MyDecimal` denotes. -/
def MyDecimal.toRat (d : MyDecimal) : ℚ :=
  (d.intVal : ℚ) / (10 : ℚ) ^ d.frac

/-- Modelled from the spec: `types.NewDecFromInt` converts an integer to the
exact-decimal representation (no fractional digits). -/
def NewDecFromInt (n : Int) : MyDecimal := ⟨n, 0⟩

/-- The exact value of a decimal addition: operands are aligned to the wider
scale and the unscaled values added; the result's fractional digit count is
the maximum of the operands' counts. -/
def DecimalAddVal (a b : MyDecimal) : MyDecimal :=
  ⟨a.intVal * 10 ^ (max a.frac b.frac - a.frac) +
     b.intVal * 10 ^ (max a.frac b.frac - b.frac),
   max a.frac b.frac⟩

/-- Modelled from the spec: `types.DecimalAdd` is an exact add with an
explicit overflow error.  The precision bound at which overflow fires lives
inside the decimal library, outside the excerpt, so it is abstracted as a
predicate `ov` on the operands: when `ov a b` holds the add reports
overflow, otherwise it returns the exact sum. -/
def DecimalAdd (ov : MyDecimal → MyDecimal → Bool) (a b : MyDecimal) :
    Except AggError MyDecimal :=
  if ov a b then .error .decOverflow else .ok (DecimalAddVal a b)

/-- Modelled from the spec: `types.DivFracIncr`, the fixed fractional
increment of MySQL-compatible decimal division (4 in the repository). -/
def DivFracIncr : Nat := 4

/-- Modelled from the spec: `types.DecimalDiv` divides under the
fractional-increment convention: the result's fractional digit count is the
dividend's extended by the increment, and the quotient is rounded to that
scale; dividing by zero is the error case. -/
def DecimalDiv (a b : MyDecimal) (fracIncr : Nat) : Except AggError MyDecimal :=
  if b.toRat = 0 then .error .divByZero
  else .ok ⟨round (a.toRat / b.toRat * (10 : ℚ) ^ (a.frac + fracIncr)),
            a.frac + fracIncr⟩

/-- Modelled from the spec: the output batch.  A column holds the cells
appended so far; `none` is the null marker. -/
def Chunk (V : Type) := Nat → List (Option V)

/-- Modelled from the spec: append a null marker at column `ordinal`. -/
def Chunk.AppendNull {V : Type} (chk : Chunk V) (ordinal : Nat) : Chunk V :=
  fun i => if i = ordinal then chk i ++ [none] else chk i

/-- Modelled from the spec: append a decimal value at column `ordinal`. -/
def Chunk.AppendMyDecimal (chk : Chunk MyDecimal) (ordinal : Nat)
    (d : MyDecimal) : Chunk MyDecimal :=
  fun i => if i = ordinal then chk i ++ [some d] else chk i

/-- Modelled from the spec: append a floating value at column `ordinal`. -/
def Chunk.AppendFloat64 {α : Type} (chk : Chunk α) (ordinal : Nat) (x : α) :
    Chunk α :=
  fun i => if i = ordinal then chk i ++ [some x] else chk i

/-- The partial result of the non-distinct decimal AVG variants:
`partialResult4AvgDecimal` from the source. -/
structure partialResult4AvgDecimal where
  sum : MyDecimal
  count : Int
deriving DecidableEq, Repr

/-- `baseAvgDecimal.AllocPartialResult`: a fresh accumulator, the Go zero
value of the struct (zero-valued decimal sum, zero count). -/
def baseAvgDecimal.AllocPartialResult : partialResult4AvgDecimal :=
  ⟨⟨0, 0⟩, 0⟩

/-- `baseAvgDecimal.ResetPartialResult`: sets the sum to the decimal zero
built from the integer 0 and the count to 0, in place. -/
def baseAvgDecimal.ResetPartialResult (p : partialResult4AvgDecimal) :
    partialResult4AvgDecimal :=
  ⟨NewDecFromInt 0, 0⟩

/-- `baseAvgDecimal.AppendFinalResult2Chunk`: a zero count appends a null
marker; otherwise the sum is divided by the count (converted to decimal)
with the fractional increment, errors propagating, and the quotient is
appended at the ordinal. -/
def baseAvgDecimal.AppendFinalResult2Chunk (ordinal : Nat)
    (p : partialResult4AvgDecimal) (chk : Chunk MyDecimal) :
    Except AggError (Chunk MyDecimal) :=
  if p.count = 0 then .ok (chk.AppendNull ordinal)
  else
    match DecimalDiv p.sum (NewDecFromInt p.count) DivFracIncr with
    | .error e => .error e
    | .ok finalResult => .ok (chk.AppendMyDecimal ordinal finalResult)

/-- `avgOriginal4Decimal.UpdatePartialResult`: per row, an evaluation error
aborts the batch with the rows so far left applied; a null row is skipped;
otherwise the value is added into a scratch sum that is committed, and the
count incremented, only when the add succeeds. -/
def avgOriginal4Decimal.UpdatePartialResult
    (ov : MyDecimal → MyDecimal → Bool) :
    List (EvalResult MyDecimal) → partialResult4AvgDecimal →
      partialResult4AvgDecimal × Option AggError
  | [], p => (p, none)
  | .err e :: _, p => (p, some e)
  | .null :: rest, p => avgOriginal4Decimal.UpdatePartialResult ov rest p
  | .val input :: rest, p =>
    match DecimalAdd ov p.sum input with
    | .error e => (p, some e)
    | .ok newSum =>
      avgOriginal4Decimal.UpdatePartialResult ov rest ⟨newSum, p.count + 1⟩

/-- A merge-phase input row carries the evaluation outcomes of the
pre-aggregated sum expression (args[1]) and count expression (args[0]). -/
structure MergeRow (σ : Type) where
  sumEval : EvalResult σ
  countEval : EvalResult Int
deriving DecidableEq, Repr

/-- `avgPartial4Decimal.UpdatePartialResult`: per row, the sum expression is
evaluated first (error aborts, null skips the row); only then the count
expression (error aborts, null skips); then the pre-aggregated sum is added
exactly into the sum and the pre-aggregated count added into the count. -/
def avgPartial4Decimal.UpdatePartialResult
    (ov : MyDecimal → MyDecimal → Bool) :
    List (MergeRow MyDecimal) → partialResult4AvgDecimal →
      partialResult4AvgDecimal × Option AggError
  | [], p => (p, none)
  | row :: rest, p =>
    match row.sumEval with
    | .err e => (p, some e)
    | .null => avgPartial4Decimal.UpdatePartialResult ov rest p
    | .val inputSum =>
      match row.countEval with
      | .err e => (p, some e)
      | .null => avgPartial4Decimal.UpdatePartialResult ov rest p
      | .val inputCount =>
        match DecimalAdd ov p.sum inputSum with
        | .error e => (p, some e)
        | .ok newSum =>
          avgPartial4Decimal.UpdatePartialResult ov rest
            ⟨newSum, p.count + inputCount⟩

/-- Modelled from the spec: `decimalSet`, the dedup set of the distinct
decimal variant; membership uses numeric equality of decimal values. -/
def decimalSet : Type := List MyDecimal

/-- Modelled from the spec: a fresh empty decimal set. -/
def newDecimalSet : decimalSet := []

/-- Modelled from the spec: decimal set membership by numeric equality. -/
def decimalSet.exist (s : decimalSet) (d : MyDecimal) : Bool :=
  s.any fun w => w.toRat = d.toRat

/-- Modelled from the spec: decimal set insertion. -/
def decimalSet.insert (s : decimalSet) (d : MyDecimal) : decimalSet :=
  d :: s

/-- The partial result of the distinct decimal variant: the plain decimal
partial result (embedded struct, flattened here) plus the dedup set. -/
structure partialResult4AvgDistinctDecimal where
  sum : MyDecimal
  count : Int
  valSet : decimalSet

/-- `avgOriginal4DistinctDecimal.AllocPartialResult`: zero-valued sum and
count and a fresh empty set. -/
def avgOriginal4DistinctDecimal.AllocPartialResult :
    partialResult4AvgDistinctDecimal :=
  ⟨⟨0, 0⟩, 0, newDecimalSet⟩

/-- `avgOriginal4DistinctDecimal.ResetPartialResult`: zero sum, zero count,
fresh empty set, in place. -/
def avgOriginal4DistinctDecimal.ResetPartialResult
    (p : partialResult4AvgDistinctDecimal) : partialResult4AvgDistinctDecimal :=
  ⟨NewDecFromInt 0, 0, newDecimalSet⟩

/-- `avgOriginal4DistinctDecimal.UpdatePartialResult`: as the plain original
decimal update, but a row whose value is already in the set is skipped, and
a freshly accumulated value is inserted into the set only after its add
succeeded. -/
def avgOriginal4DistinctDecimal.UpdatePartialResult
    (ov : MyDecimal → MyDecimal → Bool) :
    List (EvalResult MyDecimal) → partialResult4AvgDistinctDecimal →
      partialResult4AvgDistinctDecimal × Option AggError
  | [], p => (p, none)
  | .err e :: _, p => (p, some e)
  | .null :: rest, p => avgOriginal4DistinctDecimal.UpdatePartialResult ov rest p
  | .val input :: rest, p =>
    if p.valSet.exist input then
      avgOriginal4DistinctDecimal.UpdatePartialResult ov rest p
    else
      match DecimalAdd ov p.sum input with
      | .error e => (p, some e)
      | .ok newSum =>
        avgOriginal4DistinctDecimal.UpdatePartialResult ov rest
          ⟨newSum, p.count + 1, p.valSet.insert input⟩

/-- `avgOriginal4DistinctDecimal.AppendFinalResult2Chunk`: same finalization
as the non-distinct decimal base. -/
def avgOriginal4DistinctDecimal.AppendFinalResult2Chunk (ordinal : Nat)
    (p : partialResult4AvgDistinctDecimal) (chk : Chunk MyDecimal) :
    Except AggError (Chunk MyDecimal) :=
  if p.count = 0 then .ok (chk.AppendNull ordinal)
  else
    match DecimalDiv p.sum (NewDecFromInt p.count) DivFracIncr with
    | .error e => .error e
    | .ok finalResult => .ok (chk.AppendMyDecimal ordinal finalResult)

/-- The partial result of the non-distinct float AVG variants.  The value
type is kept abstract: the source fixes it to the IEEE-754 double, whose
add and divide the embedding represents by the type's operations; every
property proved below holds for any choice, so in particular for doubles. -/
structure partialResult4AvgFloat64 (α : Type) where
  sum : α
  count : Int
deriving DecidableEq, Repr

/-- `baseAvgFloat64.AllocPartialResult`: the Go zero value, sum 0 count 0. -/
def baseAvgFloat64.AllocPartialResult {α : Type} [Zero α] :
    partialResult4AvgFloat64 α :=
  ⟨0, 0⟩

/-- `baseAvgFloat64.ResetPartialResult`: sum 0, count 0, in place. -/
def baseAvgFloat64.ResetPartialResult {α : Type} [Zero α]
    (p : partialResult4AvgFloat64 α) : partialResult4AvgFloat64 α :=
  ⟨0, 0⟩

/-- `baseAvgFloat64.AppendFinalResult2Chunk`: a zero count appends a null
marker, otherwise the plain floating quotient of sum by count; never an
error. -/
def baseAvgFloat64.AppendFinalResult2Chunk {α : Type} [Div α] [IntCast α]
    (ordinal : Nat) (p : partialResult4AvgFloat64 α) (chk : Chunk α) :
    Except AggError (Chunk α) :=
  if p.count = 0 then .ok (chk.AppendNull ordinal)
  else .ok (chk.AppendFloat64 ordinal (p.sum / (p.count : α)))

/-- `avgOriginal4Float64.UpdatePartialResult`: per row, an evaluation error
aborts the batch, a null is skipped, and otherwise the value is added to
the sum and the count incremented; the floating add itself cannot fail. -/
def avgOriginal4Float64.UpdatePartialResult {α : Type} [Add α] :
    List (EvalResult α) → partialResult4AvgFloat64 α →
      partialResult4AvgFloat64 α × Option AggError
  | [], p => (p, none)
  | .err e :: _, p => (p, some e)
  | .null :: rest, p => avgOriginal4Float64.UpdatePartialResult rest p
  | .val input :: rest, p =>
    avgOriginal4Float64.UpdatePartialResult rest ⟨p.sum + input, p.count + 1⟩

/-- `avgPartial4Float64.UpdatePartialResult`: the merge-phase float update,
with the same evaluation order and skip rules as the decimal one and plain
floating addition. -/
def avgPartial4Float64.UpdatePartialResult {α : Type} [Add α] :
    List (MergeRow α) → partialResult4AvgFloat64 α →
      partialResult4AvgFloat64 α × Option AggError
  | [], p => (p, none)
  | row :: rest, p =>
    match row.sumEval with
    | .err e => (p, some e)
    | .null => avgPartial4Float64.UpdatePartialResult rest p
    | .val inputSum =>
      match row.countEval with
      | .err e => (p, some e)
      | .null => avgPartial4Float64.UpdatePartialResult rest p
      | .val inputCount =>
        avgPartial4Float64.UpdatePartialResult rest
          ⟨p.sum + inputSum, p.count + inputCount⟩

/-- Modelled from the spec: `float64Set`, the dedup set of the distinct
float variant, with standard equality of the domain. -/
def float64Set (α : Type) : Type := List α

/-- Modelled from the spec: a fresh empty float set. -/
def newFloat64Set {α : Type} : float64Set α := []

/-- Modelled from the spec: float set membership by standard equality. -/
def float64Set.exist {α : Type} [DecidableEq α] (s : float64Set α) (x : α) :
    Bool :=
  s.any fun w => w = x

/-- Modelled from the spec: float set insertion. -/
def float64Set.insert {α : Type} (s : float64Set α) (x : α) : float64Set α :=
  x :: s

/-- The partial result of the distinct float variant (embedded plain float
partial result, flattened, plus the dedup set). -/
structure partialResult4AvgDistinctFloat64 (α : Type) where
  sum : α
  count : Int
  valSet : float64Set α

/-- `avgOriginal4DistinctFloat64.AllocPartialResult`: zero sum and count and
a fresh empty set. -/
def avgOriginal4DistinctFloat64.AllocPartialResult {α : Type} [Zero α] :
    partialResult4AvgDistinctFloat64 α :=
  ⟨0, 0, newFloat64Set⟩

/-- `avgOriginal4DistinctFloat64.ResetPartialResult`: zero sum, zero count,
fresh empty set, in place. -/
def avgOriginal4DistinctFloat64.ResetPartialResult {α : Type} [Zero α]
    (p : partialResult4AvgDistinctFloat64 α) :
    partialResult4AvgDistinctFloat64 α :=
  ⟨0, 0, newFloat64Set⟩

/-- `avgOriginal4DistinctFloat64.UpdatePartialResult`: skips nulls and
values already in the set; otherwise accumulates and inserts. -/
def avgOriginal4DistinctFloat64.UpdatePartialResult {α : Type} [Add α]
    [DecidableEq α] :
    List (EvalResult α) → partialResult4AvgDistinctFloat64 α →
      partialResult4AvgDistinctFloat64 α × Option AggError
  | [], p => (p, none)
  | .err e :: _, p => (p, some e)
  | .null :: rest, p => avgOriginal4DistinctFloat64.UpdatePartialResult rest p
  | .val input :: rest, p =>
    if p.valSet.exist input then
      avgOriginal4DistinctFloat64.UpdatePartialResult rest p
    else
      avgOriginal4DistinctFloat64.UpdatePartialResult rest
        ⟨p.sum + input, p.count + 1, p.valSet.insert input⟩

/-- `avgOriginal4DistinctFloat64.AppendFinalResult2Chunk`: null marker on a
zero count, otherwise the plain floating quotient; never an error. -/
def avgOriginal4DistinctFloat64.AppendFinalResult2Chunk {α : Type} [Div α]
    [IntCast α] (ordinal : Nat) (p : partialResult4AvgDistinctFloat64 α)
    (chk : Chunk α) : Except AggError (Chunk α) :=
  if p.count = 0 then .ok (chk.AppendNull ordinal)
  else .ok (chk.AppendFloat64 ordinal (p.sum / (p.count : α)))

/-- Driving a sequence of update batches against one accumulator, stopping
at the first failed batch, as the executor does. -/
def runBatches {ρ σ : Type} (upd : List ρ → σ → σ × Option AggError) :
    List (List ρ) → σ → σ × Option AggError
  | [], p => (p, none)
  | b :: bs, p =>
    match upd b p with
    | (q, none) => runBatches upd bs q
    | (q, some e) => (q, some e)

/-- The non-null values of a batch of original-phase rows, in row order. -/
def nnVals {α : Type} (rows : List (EvalResult α)) : List α :=
  rows.filterMap fun r =>
    match r with
    | .val v => some v
    | _ => none

/-- The fully evaluated (sum, count) pairs of a batch of merge-phase rows,
in row order. -/
def nnPairs {σ : Type} (rows : List (MergeRow σ)) : List (σ × Int) :=
  rows.filterMap fun r =>
    match r.sumEval, r.countEval with
    | .val s, .val c => some (s, c)
    | _, _ => none

/-- An empty decimal output chunk, used for concrete evaluations. -/
def emptyDecChunk : Chunk MyDecimal := fun _ => []

/-- An empty integer output chunk, used for concrete evaluations. -/
def emptyIntChunk : Chunk Int := fun _ => []

/-- An overflow predicate that never fires (adds always succeed). -/
def ovNever : MyDecimal → MyDecimal → Bool := fun _ _ => false

/-- An overflow predicate that always fires (every add fails). -/
def ovAlways : MyDecimal → MyDecimal → Bool := fun _ _ => true

example :
    avgOriginal4Decimal.UpdatePartialResult ovNever
      [.val ⟨2, 0⟩, .null, .val ⟨4, 0⟩, .val ⟨6, 0⟩]
      baseAvgDecimal.AllocPartialResult =
    (⟨⟨12, 0⟩, 3⟩, none) := by decide

example :
    baseAvgDecimal.AppendFinalResult2Chunk 0 ⟨⟨12, 0⟩, 3⟩ (fun _ => []) =
      .ok (Chunk.AppendMyDecimal (fun _ => []) 0 ⟨40000, 4⟩) := by
  simp [baseAvgDecimal.AppendFinalResult2Chunk, DecimalDiv, MyDecimal.toRat,
    NewDecFromInt, DivFracIncr]
  norm_num

theorem pow_sub_shift (i : Int) (f m : Nat) (h : f ≤ m) :
    ((i : ℚ) * (10 : ℚ) ^ (m - f)) / (10 : ℚ) ^ m = (i : ℚ) / (10 : ℚ) ^ f := by
  rw [div_eq_div_iff (by positivity) (by positivity), mul_assoc, ← pow_add]
  congr 2
  omega

theorem MyDecimal.toRat_DecimalAddVal (a b : MyDecimal) :
    (DecimalAddVal a b).toRat = a.toRat + b.toRat := by
  unfold DecimalAddVal MyDecimal.toRat
  push_cast
  rw [add_div, pow_sub_shift _ _ _ (le_max_left _ _),
    pow_sub_shift _ _ _ (le_max_right _ _)]

theorem MyDecimal.frac_DecimalAddVal (a b : MyDecimal) :
    (DecimalAddVal a b).frac = a.frac ⊔ b.frac := rfl

theorem MyDecimal.eq_of_toRat_frac {a b : MyDecimal} (hf : a.frac = b.frac)
    (hv : a.toRat = b.toRat) : a = b := by
  obtain ⟨i, f⟩ := a
  obtain ⟨j, g⟩ := b
  simp only at hf
  subst hf
  simp only [MyDecimal.mk.injEq, and_true]
  unfold MyDecimal.toRat at hv
  simp only at hv
  field_simp at hv
  exact hv

theorem origDec_update_append (ov : MyDecimal → MyDecimal → Bool)
    (as bs : List (EvalResult MyDecimal)) (p : partialResult4AvgDecimal) :
    avgOriginal4Decimal.UpdatePartialResult ov (as ++ bs) p =
      match avgOriginal4Decimal.UpdatePartialResult ov as p with
      | (q, none) => avgOriginal4Decimal.UpdatePartialResult ov bs q
      | (q, some e) => (q, some e) := by
  induction as generalizing p with
  | nil => simp [avgOriginal4Decimal.UpdatePartialResult]
  | cons r rest ih =>
    cases r with
    | err e => simp [avgOriginal4Decimal.UpdatePartialResult]
    | null => simp only [List.cons_append, avgOriginal4Decimal.UpdatePartialResult]; exact ih p
    | val v =>
      cases hadd : DecimalAdd ov p.sum v with
      | error e => simp [avgOriginal4Decimal.UpdatePartialResult, hadd]
      | ok ns => simp only [List.cons_append, avgOriginal4Decimal.UpdatePartialResult, hadd]; exact ih _

theorem mergeDec_update_append (ov : MyDecimal → MyDecimal → Bool)
    (as bs : List (MergeRow MyDecimal)) (p : partialResult4AvgDecimal) :
    avgPartial4Decimal.UpdatePartialResult ov (as ++ bs) p =
      match avgPartial4Decimal.UpdatePartialResult ov as p with
      | (q, none) => avgPartial4Decimal.UpdatePartialResult ov bs q
      | (q, some e) => (q, some e) := by
  induction as generalizing p with
  | nil => simp [avgPartial4Decimal.UpdatePartialResult]
  | cons r rest ih =>
    cases hs : r.sumEval with
    | err e => simp [avgPartial4Decimal.UpdatePartialResult, hs]
    | null => simp only [List.cons_append, avgPartial4Decimal.UpdatePartialResult, hs]; exact ih p
    | val s =>
      cases hc : r.countEval with
      | err e => simp [avgPartial4Decimal.UpdatePartialResult, hs, hc]
      | null => simp only [List.cons_append, avgPartial4Decimal.UpdatePartialResult, hs, hc]; exact ih p
      | val c =>
        cases hadd : DecimalAdd ov p.sum s with
        | error e => simp [avgPartial4Decimal.UpdatePartialResult, hs, hc, hadd]
        | ok ns =>
          simp only [List.cons_append, avgPartial4Decimal.UpdatePartialResult, hs, hc, hadd]
          exact ih _

theorem distinctDec_update_append
    (ov : MyDecimal → MyDecimal → Bool) (as bs : List (EvalResult MyDecimal))
    (p : partialResult4AvgDistinctDecimal) :
    avgOriginal4DistinctDecimal.UpdatePartialResult ov (as ++ bs) p =
      match avgOriginal4DistinctDecimal.UpdatePartialResult ov as p with
      | (q, none) => avgOriginal4DistinctDecimal.UpdatePartialResult ov bs q
      | (q, some e) => (q, some e) := by
  induction as generalizing p with
  | nil => simp [avgOriginal4DistinctDecimal.UpdatePartialResult]
  | cons r rest ih =>
    cases r with
    | err e => simp [avgOriginal4DistinctDecimal.UpdatePartialResult]
    | null => simp only [List.cons_append, avgOriginal4DistinctDecimal.UpdatePartialResult]; exact ih p
    | val v =>
      by_cases hex : p.valSet.exist v
      · simp only [List.cons_append, avgOriginal4DistinctDecimal.UpdatePartialResult, hex, if_true]
        exact ih p
      · cases hadd : DecimalAdd ov p.sum v with
        | error e => simp [avgOriginal4DistinctDecimal.UpdatePartialResult, hex, hadd]
        | ok ns =>
          simp only [List.cons_append, avgOriginal4DistinctDecimal.UpdatePartialResult, hex, if_false,
            Bool.false_eq_true, hadd]
          exact ih _

theorem origF_update_append {α : Type} [Add α]
    (as bs : List (EvalResult α)) (p : partialResult4AvgFloat64 α) :
    avgOriginal4Float64.UpdatePartialResult (as ++ bs) p =
      match avgOriginal4Float64.UpdatePartialResult as p with
      | (q, none) => avgOriginal4Float64.UpdatePartialResult bs q
      | (q, some e) => (q, some e) := by
  induction as generalizing p with
  | nil => simp [avgOriginal4Float64.UpdatePartialResult]
  | cons r rest ih =>
    cases r with
    | err e => simp [avgOriginal4Float64.UpdatePartialResult]
    | null => simp only [List.cons_append, avgOriginal4Float64.UpdatePartialResult]; exact ih p
    | val v => simp only [List.cons_append, avgOriginal4Float64.UpdatePartialResult]; exact ih _

theorem mergeF_update_append {α : Type} [Add α]
    (as bs : List (MergeRow α)) (p : partialResult4AvgFloat64 α) :
    avgPartial4Float64.UpdatePartialResult (as ++ bs) p =
      match avgPartial4Float64.UpdatePartialResult as p with
      | (q, none) => avgPartial4Float64.UpdatePartialResult bs q
      | (q, some e) => (q, some e) := by
  induction as generalizing p with
  | nil => simp [avgPartial4Float64.UpdatePartialResult]
  | cons r rest ih =>
    cases hs : r.sumEval with
    | err e => simp [avgPartial4Float64.UpdatePartialResult, hs]
    | null => simp only [List.cons_append, avgPartial4Float64.UpdatePartialResult, hs]; exact ih p
    | val s =>
      cases hc : r.countEval with
      | err e => simp [avgPartial4Float64.UpdatePartialResult, hs, hc]
      | null => simp only [List.cons_append, avgPartial4Float64.UpdatePartialResult, hs, hc]; exact ih p
      | val c => simp only [List.cons_append, avgPartial4Float64.UpdatePartialResult, hs, hc]; exact ih _

theorem distinctF_update_append {α : Type} [Add α]
    [DecidableEq α] (as bs : List (EvalResult α))
    (p : partialResult4AvgDistinctFloat64 α) :
    avgOriginal4DistinctFloat64.UpdatePartialResult (as ++ bs) p =
      match avgOriginal4DistinctFloat64.UpdatePartialResult as p with
      | (q, none) => avgOriginal4DistinctFloat64.UpdatePartialResult bs q
      | (q, some e) => (q, some e) := by
  induction as generalizing p with
  | nil => simp [avgOriginal4DistinctFloat64.UpdatePartialResult]
  | cons r rest ih =>
    cases r with
    | err e => simp [avgOriginal4DistinctFloat64.UpdatePartialResult]
    | null => simp only [List.cons_append, avgOriginal4DistinctFloat64.UpdatePartialResult]; exact ih p
    | val v =>
      by_cases hex : p.valSet.exist v
      · simp only [List.cons_append, avgOriginal4DistinctFloat64.UpdatePartialResult, hex, if_true]
        exact ih p
      · simp only [List.cons_append, avgOriginal4DistinctFloat64.UpdatePartialResult, hex, if_false,
          Bool.false_eq_true]
        exact ih _

theorem runBatches_eq_flatten {ρ σ : Type}
    (upd : List ρ → σ → σ × Option AggError)
    (hnil : ∀ p, upd [] p = (p, none))
    (happOk : ∀ as bs p q, upd as p = (q, none) →
      upd (as ++ bs) p = upd bs q)
    (happErr : ∀ as bs p q e, upd as p = (q, some e) →
      upd (as ++ bs) p = (q, some e)) :
    ∀ (batches : List (List ρ)) (p : σ),
      runBatches upd batches p = upd batches.flatten p := by
  intro batches
  induction batches with
  | nil => intro p; simp [runBatches, hnil]
  | cons b bs ih =>
    intro p
    rw [List.flatten_cons]
    simp only [runBatches]
    cases hub : upd b p with
    | mk q e =>
      cases e with
      | none =>
        rw [happOk b bs.flatten p q hub]
        exact ih q
      | some e =>
        rw [happErr b bs.flatten p q e hub]

theorem nnVals_nil {α : Type} : nnVals ([] : List (EvalResult α)) = [] := rfl

theorem nnVals_cons_err {α : Type} (e : AggError) (rest : List (EvalResult α)) :
    nnVals (.err e :: rest) = nnVals rest := rfl

theorem nnVals_cons_null {α : Type} (rest : List (EvalResult α)) :
    nnVals (.null :: rest) = nnVals rest := rfl

theorem nnVals_cons_val {α : Type} (v : α) (rest : List (EvalResult α)) :
    nnVals (.val v :: rest) = v :: nnVals rest := rfl

theorem nnVals_append {α : Type} (as bs : List (EvalResult α)) :
    nnVals (as ++ bs) = nnVals as ++ nnVals bs :=
  List.filterMap_append _ _ _

theorem nnPairs_cons_sumErr {σ : Type} (r : MergeRow σ) (e : AggError)
    (rest : List (MergeRow σ)) (hs : r.sumEval = .err e) :
    nnPairs (r :: rest) = nnPairs rest := by
  simp [nnPairs, List.filterMap_cons, hs]

theorem nnPairs_cons_sumNull {σ : Type} (r : MergeRow σ)
    (rest : List (MergeRow σ)) (hs : r.sumEval = .null) :
    nnPairs (r :: rest) = nnPairs rest := by
  simp [nnPairs, List.filterMap_cons, hs]

theorem nnPairs_cons_countErr {σ : Type} (r : MergeRow σ) (s : σ) (e : AggError)
    (rest : List (MergeRow σ)) (hs : r.sumEval = .val s)
    (hc : r.countEval = .err e) :
    nnPairs (r :: rest) = nnPairs rest := by
  simp [nnPairs, List.filterMap_cons, hs, hc]

theorem nnPairs_cons_countNull {σ : Type} (r : MergeRow σ) (s : σ)
    (rest : List (MergeRow σ)) (hs : r.sumEval = .val s)
    (hc : r.countEval = .null) :
    nnPairs (r :: rest) = nnPairs rest := by
  simp [nnPairs, List.filterMap_cons, hs, hc]

theorem nnPairs_cons_val {σ : Type} (r : MergeRow σ) (s : σ) (c : Int)
    (rest : List (MergeRow σ)) (hs : r.sumEval = .val s)
    (hc : r.countEval = .val c) :
    nnPairs (r :: rest) = (s, c) :: nnPairs rest := by
  simp [nnPairs, List.filterMap_cons, hs, hc]

theorem foldl_sup_eq_sup (l : List ℕ) (b : ℕ) :
    l.foldl (fun m n => m ⊔ n) b = b ⊔ (↑l : Multiset ℕ).sup := by
  induction l generalizing b with
  | nil => simp
  | cons n l ih =>
    rw [List.foldl_cons, ih, ← Multiset.cons_coe, Multiset.sup_cons, sup_assoc]

theorem foldl_frac_eq (l : List MyDecimal) (b : ℕ) :
    l.foldl (fun m d => m ⊔ d.frac) b =
      b ⊔ (↑(l.map MyDecimal.frac) : Multiset ℕ).sup := by
  rw [← foldl_sup_eq_sup, List.foldl_map]

theorem foldl_fst_frac_eq (l : List (MyDecimal × Int)) (b : ℕ) :
    l.foldl (fun m x => m ⊔ x.1.frac) b =
      b ⊔ (↑(l.map fun x => x.1.frac) : Multiset ℕ).sup := by
  rw [← foldl_sup_eq_sup, List.foldl_map]

theorem origDec_update_char (ov : MyDecimal → MyDecimal → Bool) :
    ∀ (rows : List (EvalResult MyDecimal)) (p q : partialResult4AvgDecimal),
    avgOriginal4Decimal.UpdatePartialResult ov rows p = (q, none) →
    q.count = p.count + (nnVals rows).length ∧
    q.sum.toRat = p.sum.toRat + ((nnVals rows).map MyDecimal.toRat).sum ∧
    q.sum.frac = (nnVals rows).foldl (fun m d => m ⊔ d.frac) p.sum.frac := by
  intro rows
  induction rows with
  | nil =>
    intro p q h
    simp only [avgOriginal4Decimal.UpdatePartialResult, Prod.mk.injEq] at h
    simp [← h.1, nnVals_nil]
  | cons r rest ih =>
    intro p q h
    cases r with
    | err e => simp [avgOriginal4Decimal.UpdatePartialResult] at h
    | null =>
      simp only [avgOriginal4Decimal.UpdatePartialResult] at h
      simpa [nnVals_cons_null] using ih p q h
    | val v =>
      cases hadd : DecimalAdd ov p.sum v with
      | error e => simp [avgOriginal4Decimal.UpdatePartialResult, hadd] at h
      | ok ns =>
        simp only [avgOriginal4Decimal.UpdatePartialResult, hadd] at h
        have hns : ns = DecimalAddVal p.sum v := by
          unfold DecimalAdd at hadd
          split at hadd
          · cases hadd
          · cases hadd; rfl
        subst hns
        obtain ⟨h1, h2, h3⟩ := ih _ _ h
        refine ⟨?_, ?_, ?_⟩
        · rw [h1, nnVals_cons_val]
          simp only [List.length_cons]
          push_cast
          ring
        · rw [h2, MyDecimal.toRat_DecimalAddVal, nnVals_cons_val]
          simp only [List.map_cons, List.sum_cons]
          ring
        · rw [h3, MyDecimal.frac_DecimalAddVal, nnVals_cons_val, List.foldl_cons]

theorem mergeDec_update_char (ov : MyDecimal → MyDecimal → Bool) :
    ∀ (rows : List (MergeRow MyDecimal)) (p q : partialResult4AvgDecimal),
    avgPartial4Decimal.UpdatePartialResult ov rows p = (q, none) →
    q.count = p.count + ((nnPairs rows).map Prod.snd).sum ∧
    q.sum.toRat = p.sum.toRat + ((nnPairs rows).map fun x => x.1.toRat).sum ∧
    q.sum.frac = (nnPairs rows).foldl (fun m x => m ⊔ x.1.frac) p.sum.frac := by
  intro rows
  induction rows with
  | nil =>
    intro p q h
    simp only [avgPartial4Decimal.UpdatePartialResult, Prod.mk.injEq] at h
    simp [← h.1, nnPairs]
  | cons r rest ih =>
    intro p q h
    cases hs : r.sumEval with
    | err e => simp [avgPartial4Decimal.UpdatePartialResult, hs] at h
    | null =>
      simp only [avgPartial4Decimal.UpdatePartialResult, hs] at h
      simpa [nnPairs_cons_sumNull r rest hs] using ih p q h
    | val s =>
      cases hc : r.countEval with
      | err e => simp [avgPartial4Decimal.UpdatePartialResult, hs, hc] at h
      | null =>
        simp only [avgPartial4Decimal.UpdatePartialResult, hs, hc] at h
        simpa [nnPairs_cons_countNull r s rest hs hc] using ih p q h
      | val c =>
        cases hadd : DecimalAdd ov p.sum s with
        | error e => simp [avgPartial4Decimal.UpdatePartialResult, hs, hc, hadd] at h
        | ok ns =>
          simp only [avgPartial4Decimal.UpdatePartialResult, hs, hc, hadd] at h
          have hns : ns = DecimalAddVal p.sum s := by
            unfold DecimalAdd at hadd
            split at hadd
            · cases hadd
            · cases hadd; rfl
          subst hns
          obtain ⟨h1, h2, h3⟩ := ih _ _ h
          refine ⟨?_, ?_, ?_⟩
          · rw [h1, nnPairs_cons_val r s c rest hs hc]
            simp only [List.map_cons, List.sum_cons]
            ring
          · rw [h2, MyDecimal.toRat_DecimalAddVal,
              nnPairs_cons_val r s c rest hs hc]
            simp only [List.map_cons, List.sum_cons]
            ring
          · rw [h3, MyDecimal.frac_DecimalAddVal,
              nnPairs_cons_val r s c rest hs hc, List.foldl_cons]

theorem origF_update_char {α : Type} [Add α] :
    ∀ (rows : List (EvalResult α)) (p q : partialResult4AvgFloat64 α),
    avgOriginal4Float64.UpdatePartialResult rows p = (q, none) →
    q.count = p.count + (nnVals rows).length ∧
    q.sum = (nnVals rows).foldl (fun a v => a + v) p.sum := by
  intro rows
  induction rows with
  | nil =>
    intro p q h
    simp only [avgOriginal4Float64.UpdatePartialResult, Prod.mk.injEq] at h
    simp [← h.1, nnVals_nil]
  | cons r rest ih =>
    intro p q h
    cases r with
    | err e => simp [avgOriginal4Float64.UpdatePartialResult] at h
    | null =>
      simp only [avgOriginal4Float64.UpdatePartialResult] at h
      simpa [nnVals_cons_null] using ih p q h
    | val v =>
      simp only [avgOriginal4Float64.UpdatePartialResult] at h
      obtain ⟨h1, h2⟩ := ih _ _ h
      refine ⟨?_, ?_⟩
      · rw [h1, nnVals_cons_val]
        simp only [List.length_cons]
        push_cast
        ring
      · rw [h2, nnVals_cons_val, List.foldl_cons]

theorem nnVals_perm {α : Type} {l1 l2 : List (EvalResult α)}
    (h : l1.Perm l2) : (nnVals l1).Perm (nnVals l2) :=
  h.filterMap _

theorem nnPairs_perm {σ : Type} {l1 l2 : List (MergeRow σ)}
    (h : l1.Perm l2) : (nnPairs l1).Perm (nnPairs l2) :=
  h.filterMap _

theorem nnPairs_map_pure (results : List partialResult4AvgDecimal) :
    nnPairs (results.map fun r =>
        (⟨.val r.sum, .val r.count⟩ : MergeRow MyDecimal)) =
      results.map fun r => (r.sum, r.count) := by
  induction results with
  | nil => rfl
  | cons r rest ih => simp only [List.map_cons, nnPairs, List.filterMap_cons] at ih ⊢; rw [ih]

theorem origDecimal_parts_char (ov : MyDecimal → MyDecimal → Bool) :
    ∀ (parts : List (List (EvalResult MyDecimal)))
      (results : List partialResult4AvgDecimal),
    List.Forall₂ (fun part r =>
      avgOriginal4Decimal.UpdatePartialResult ov part
        baseAvgDecimal.AllocPartialResult = (r, none)) parts results →
    (results.map fun r => r.count).sum = ((nnVals parts.flatten).length : Int) ∧
    (results.map fun r => r.sum.toRat).sum =
      ((nnVals parts.flatten).map MyDecimal.toRat).sum ∧
    (↑(results.map fun r => r.sum.frac) : Multiset ℕ).sup =
      (↑((nnVals parts.flatten).map MyDecimal.frac) : Multiset ℕ).sup := by
  intro parts results h
  induction h with
  | nil => simp [nnVals_nil]
  | @cons part r parts' results' hpr hrest ih =>
    obtain ⟨h1, h2, h3⟩ := origDec_update_char ov _ _ _ hpr
    obtain ⟨ih1, ih2, ih3⟩ := ih
    rw [foldl_frac_eq] at h3
    simp only [baseAvgDecimal.AllocPartialResult] at h1 h2 h3
    refine ⟨?_, ?_, ?_⟩
    · simp only [List.map_cons, List.sum_cons, List.flatten_cons, nnVals_append,
        List.length_append, ih1, h1]
      push_cast
      ring
    · have hz : (⟨⟨0, 0⟩, 0⟩ : partialResult4AvgDecimal).sum.toRat = 0 := by
        simp [MyDecimal.toRat]
      rw [hz, zero_add] at h2
      simp only [List.map_cons, List.sum_cons, List.flatten_cons, nnVals_append,
        List.map_append, List.sum_append, ih2, h2]
    · simp only [List.map_cons, ← Multiset.cons_coe, Multiset.sup_cons, ih3, h3,
        List.flatten_cons, nnVals_append, List.map_append, ← Multiset.coe_add,
        Multiset.sup_add]
      simp

/-- Claim C1: mergeability law.  Partition any multiset of decimal inputs
into arbitrary disjoint groups (a list of batches whose concatenation is a
permutation of the whole input), run the original-phase decimal update on
each group from a fresh accumulator to obtain (sum, count) pairs, then fold
those pairs, in any order, with the merge-phase decimal update from a fresh
accumulator: whenever all runs succeed, the merged accumulator equals the
accumulator produced by running the original-phase update on the whole
input. -/
theorem avg_decimal_mergeability (ov : MyDecimal → MyDecimal → Bool)
    (xs : List (EvalResult MyDecimal))
    (parts : List (List (EvalResult MyDecimal)))
    (results : List partialResult4AvgDecimal)
    (mergeRows : List (MergeRow MyDecimal))
    (pFull pMerged : partialResult4AvgDecimal)
    (hperm : parts.flatten.Perm xs)
    (hfull : avgOriginal4Decimal.UpdatePartialResult ov xs
      baseAvgDecimal.AllocPartialResult = (pFull, none))
    (hparts : List.Forall₂ (fun part r =>
      avgOriginal4Decimal.UpdatePartialResult ov part
        baseAvgDecimal.AllocPartialResult = (r, none)) parts results)
    (hmrows : mergeRows.Perm (results.map fun r =>
      (⟨.val r.sum, .val r.count⟩ : MergeRow MyDecimal)))
    (hmerge : avgPartial4Decimal.UpdatePartialResult ov mergeRows
      baseAvgDecimal.AllocPartialResult = (pMerged, none)) :
    pMerged = pFull := by
  obtain ⟨f1, f2, f3⟩ := origDec_update_char ov _ _ _ hfull
  obtain ⟨m1, m2, m3⟩ := mergeDec_update_char ov _ _ _ hmerge
  obtain ⟨g1, g2, g3⟩ := origDecimal_parts_char ov parts results hparts
  rw [foldl_frac_eq] at f3
  rw [foldl_fst_frac_eq] at m3
  have hz1 : baseAvgDecimal.AllocPartialResult.count = 0 := rfl
  have hz2 : baseAvgDecimal.AllocPartialResult.sum.toRat = 0 := by
    simp [baseAvgDecimal.AllocPartialResult, MyDecimal.toRat]
  have hz3 : baseAvgDecimal.AllocPartialResult.sum.frac = 0 := rfl
  rw [hz1, zero_add] at f1 m1
  rw [hz2, zero_add] at f2 m2
  rw [hz3, sup_eq_right.mpr (Nat.zero_le _)] at f3
  rw [hz3, sup_eq_right.mpr (Nat.zero_le _)] at m3
  have hp : (nnPairs mergeRows).Perm (results.map fun r => (r.sum, r.count)) := by
    have h := nnPairs_perm hmrows
    rwa [nnPairs_map_pure] at h
  have hcount : ((nnPairs mergeRows).map Prod.snd).sum =
      (results.map fun r => r.count).sum := by
    have h := (hp.map Prod.snd).sum_eq
    simpa [List.map_map, Function.comp] using h
  have hsum : ((nnPairs mergeRows).map fun x => x.1.toRat).sum =
      (results.map fun r => r.sum.toRat).sum := by
    have h := (hp.map fun x => x.1.toRat).sum_eq
    simpa [List.map_map, Function.comp] using h
  have hfrac : (↑((nnPairs mergeRows).map fun x => x.1.frac) : Multiset ℕ).sup =
      (↑(results.map fun r => r.sum.frac) : Multiset ℕ).sup := by
    have h2 : ((results.map fun r => (r.sum, r.count)).map fun x => x.1.frac) =
        results.map fun r => r.sum.frac := by
      simp [List.map_map, Function.comp]
    rw [Multiset.coe_eq_coe.mpr (hp.map fun x => x.1.frac), h2]
  have hx : (nnVals parts.flatten).Perm (nnVals xs) := nnVals_perm hperm
  have hxlen := hx.length_eq
  have hxsum := (hx.map MyDecimal.toRat).sum_eq
  have hxfrac := Multiset.coe_eq_coe.mpr (hx.map MyDecimal.frac)
  have hcountEq : pMerged.count = pFull.count := by
    rw [m1, hcount, g1, hxlen, f1]
  have hsumRat : pMerged.sum.toRat = pFull.sum.toRat := by
    rw [m2, hsum, g2, hxsum, f2]
  have hsumFrac : pMerged.sum.frac = pFull.sum.frac := by
    rw [m3, hfrac, g3, hxfrac, f3]
  have hsumEq : pMerged.sum = pFull.sum :=
    MyDecimal.eq_of_toRat_frac hsumFrac hsumRat
  obtain ⟨ms, mc⟩ := pMerged
  obtain ⟨fs, fc⟩ := pFull
  simp only at hcountEq hsumEq
  rw [hcountEq, hsumEq]

theorem avg_decimal_mergeability_witness :
    (⟨⟨12, 0⟩, 3⟩ : partialResult4AvgDecimal) = ⟨⟨12, 0⟩, 3⟩ :=
  avg_decimal_mergeability ovNever
    [.val ⟨2, 0⟩, .val ⟨4, 0⟩, .val ⟨6, 0⟩]
    [[.val ⟨2, 0⟩], [.val ⟨4, 0⟩, .val ⟨6, 0⟩]]
    [⟨⟨2, 0⟩, 1⟩, ⟨⟨10, 0⟩, 2⟩]
    [⟨.val ⟨10, 0⟩, .val 2⟩, ⟨.val ⟨2, 0⟩, .val 1⟩]
    ⟨⟨12, 0⟩, 3⟩ ⟨⟨12, 0⟩, 3⟩
    (by decide) (by decide)
    (.cons (by decide) (.cons (by decide) .nil))
    (by decide) (by decide)

theorem origDec_update_append_ok (ov : MyDecimal → MyDecimal → Bool)
    (as bs : List (EvalResult MyDecimal)) (p q : partialResult4AvgDecimal)
    (h : avgOriginal4Decimal.UpdatePartialResult ov as p = (q, none)) :
    avgOriginal4Decimal.UpdatePartialResult ov (as ++ bs) p =
      avgOriginal4Decimal.UpdatePartialResult ov bs q := by
  rw [origDec_update_append, h]

theorem origDec_update_append_err (ov : MyDecimal → MyDecimal → Bool)
    (as bs : List (EvalResult MyDecimal)) (p q : partialResult4AvgDecimal)
    (e : AggError)
    (h : avgOriginal4Decimal.UpdatePartialResult ov as p = (q, some e)) :
    avgOriginal4Decimal.UpdatePartialResult ov (as ++ bs) p = (q, some e) := by
  rw [origDec_update_append, h]

theorem mergeDec_update_append_ok (ov : MyDecimal → MyDecimal → Bool)
    (as bs : List (MergeRow MyDecimal)) (p q : partialResult4AvgDecimal)
    (h : avgPartial4Decimal.UpdatePartialResult ov as p = (q, none)) :
    avgPartial4Decimal.UpdatePartialResult ov (as ++ bs) p =
      avgPartial4Decimal.UpdatePartialResult ov bs q := by
  rw [mergeDec_update_append, h]

theorem distinctDec_update_append_ok
    (ov : MyDecimal → MyDecimal → Bool) (as bs : List (EvalResult MyDecimal))
    (p q : partialResult4AvgDistinctDecimal)
    (h : avgOriginal4DistinctDecimal.UpdatePartialResult ov as p = (q, none)) :
    avgOriginal4DistinctDecimal.UpdatePartialResult ov (as ++ bs) p =
      avgOriginal4DistinctDecimal.UpdatePartialResult ov bs q := by
  rw [distinctDec_update_append, h]

theorem origF_update_append_ok {α : Type} [Add α]
    (as bs : List (EvalResult α)) (p q : partialResult4AvgFloat64 α)
    (h : avgOriginal4Float64.UpdatePartialResult as p = (q, none)) :
    avgOriginal4Float64.UpdatePartialResult (as ++ bs) p =
      avgOriginal4Float64.UpdatePartialResult bs q := by
  rw [origF_update_append, h]

theorem origF_update_append_err {α : Type} [Add α]
    (as bs : List (EvalResult α)) (p q : partialResult4AvgFloat64 α)
    (e : AggError)
    (h : avgOriginal4Float64.UpdatePartialResult as p = (q, some e)) :
    avgOriginal4Float64.UpdatePartialResult (as ++ bs) p = (q, some e) := by
  rw [origF_update_append, h]

theorem mergeF_update_append_ok {α : Type} [Add α]
    (as bs : List (MergeRow α)) (p q : partialResult4AvgFloat64 α)
    (h : avgPartial4Float64.UpdatePartialResult as p = (q, none)) :
    avgPartial4Float64.UpdatePartialResult (as ++ bs) p =
      avgPartial4Float64.UpdatePartialResult bs q := by
  rw [mergeF_update_append, h]

theorem distinctF_update_append_ok {α : Type} [Add α]
    [DecidableEq α] (as bs : List (EvalResult α))
    (p q : partialResult4AvgDistinctFloat64 α)
    (h : avgOriginal4DistinctFloat64.UpdatePartialResult as p = (q, none)) :
    avgOriginal4DistinctFloat64.UpdatePartialResult (as ++ bs) p =
      avgOriginal4DistinctFloat64.UpdatePartialResult bs q := by
  rw [distinctF_update_append, h]

/-- Claim C2: original-phase update, decimal and float variants.  Null rows
are skipped and each non-null row adds its value to the sum and increments
the count by one: after any sequence of successful update batches applied
to a fresh accumulator, the count equals the number of non-null inputs
folded so far and the sum is the sum of exactly those counted values (for
the float variant, the running left fold of the additions from zero). -/
theorem avg_original_update_counts :
    (∀ (ov : MyDecimal → MyDecimal → Bool)
       (batches : List (List (EvalResult MyDecimal)))
       (q : partialResult4AvgDecimal),
      runBatches (avgOriginal4Decimal.UpdatePartialResult ov) batches
        baseAvgDecimal.AllocPartialResult = (q, none) →
      q.count = (nnVals batches.flatten).length ∧
      q.sum.toRat = ((nnVals batches.flatten).map MyDecimal.toRat).sum) ∧
    (∀ (α : Type) [Add α] [Zero α]
       (batches : List (List (EvalResult α)))
       (q : partialResult4AvgFloat64 α),
      runBatches avgOriginal4Float64.UpdatePartialResult batches
        baseAvgFloat64.AllocPartialResult = (q, none) →
      q.count = (nnVals batches.flatten).length ∧
      q.sum = (nnVals batches.flatten).foldl (fun a v => a + v) 0) := by
  constructor
  · intro ov batches q h
    rw [runBatches_eq_flatten _ (fun p => rfl)
      (origDec_update_append_ok ov)
      (origDec_update_append_err ov)] at h
    obtain ⟨h1, h2, h3⟩ := origDec_update_char ov _ _ _ h
    have hz2 : baseAvgDecimal.AllocPartialResult.sum.toRat = 0 := by
      simp [baseAvgDecimal.AllocPartialResult, MyDecimal.toRat]
    rw [hz2, zero_add] at h2
    have hz1 : baseAvgDecimal.AllocPartialResult.count = 0 := rfl
    rw [hz1, zero_add] at h1
    exact ⟨h1, h2⟩
  · intro α inst instz batches q h
    rw [runBatches_eq_flatten _ (fun p => rfl)
      (fun as bs p q h => origF_update_append_ok as bs p q h)
      (fun as bs p q e h => origF_update_append_err as bs p q e h)] at h
    obtain ⟨h1, h2⟩ := origF_update_char _ _ _ h
    have hz1 : (baseAvgFloat64.AllocPartialResult : partialResult4AvgFloat64 α).count = 0 := rfl
    have hz2 : (baseAvgFloat64.AllocPartialResult : partialResult4AvgFloat64 α).sum = 0 := rfl
    rw [hz1, zero_add] at h1
    rw [hz2] at h2
    exact ⟨h1, h2⟩

theorem avg_original_update_counts_witness :
    ((⟨⟨6, 0⟩, 2⟩ : partialResult4AvgDecimal).count =
        (nnVals ([[.val ⟨2, 0⟩, .null], [.val ⟨4, 0⟩]] :
          List (List (EvalResult MyDecimal))).flatten).length ∧
      (⟨⟨6, 0⟩, 2⟩ : partialResult4AvgDecimal).sum.toRat =
        ((nnVals ([[.val ⟨2, 0⟩, .null], [.val ⟨4, 0⟩]] :
          List (List (EvalResult MyDecimal))).flatten).map MyDecimal.toRat).sum) ∧
    ((⟨6, 2⟩ : partialResult4AvgFloat64 Int).count =
        (nnVals ([[.val 2, .null], [.val 4]] :
          List (List (EvalResult Int))).flatten).length ∧
      (⟨6, 2⟩ : partialResult4AvgFloat64 Int).sum =
        (nnVals ([[.val 2, .null], [.val 4]] :
          List (List (EvalResult Int))).flatten).foldl (fun a v => a + v) 0) :=
  ⟨avg_original_update_counts.1 ovNever [[.val ⟨2, 0⟩, .null], [.val ⟨4, 0⟩]]
      ⟨⟨6, 0⟩, 2⟩ (by decide),
    avg_original_update_counts.2 Int [[.val 2, .null], [.val 4]]
      ⟨6, 2⟩ (by decide)⟩

theorem NewDecFromInt_toRat (n : Int) : (NewDecFromInt n).toRat = (n : ℚ) := by
  simp [NewDecFromInt, MyDecimal.toRat]

theorem DecimalDiv_ok_of_pos (s : MyDecimal) (n : Int) (incr : Nat)
    (h : n ≠ 0) :
    DecimalDiv s (NewDecFromInt n) incr =
      .ok ⟨round (s.toRat / (NewDecFromInt n).toRat * (10 : ℚ) ^ (s.frac + incr)),
           s.frac + incr⟩ := by
  unfold DecimalDiv
  rw [if_neg]
  rw [NewDecFromInt_toRat]
  exact_mod_cast h

/-- Claim C3: finalize.  For every accumulator with count zero, finalize
writes a null marker at the variant's ordinal and reports no error; for
count positive it computes sum divided by count under the domain's division
policy and writes that single result; in both cases every column other than
the ordinal is untouched and the ordinal gains exactly one cell.  Stated
for all four finalizers: decimal base, distinct decimal, float base,
distinct float. -/
theorem avg_finalize_null_or_quotient :
    (∀ (ordinal : Nat) (p : partialResult4AvgDecimal) (chk : Chunk MyDecimal),
      (p.count = 0 →
        baseAvgDecimal.AppendFinalResult2Chunk ordinal p chk =
          .ok (chk.AppendNull ordinal) ∧
        chk.AppendNull ordinal ordinal = chk ordinal ++ [none] ∧
        ∀ i, i ≠ ordinal → chk.AppendNull ordinal i = chk i) ∧
      (0 < p.count →
        ∃ d, DecimalDiv p.sum (NewDecFromInt p.count) DivFracIncr = .ok d ∧
          baseAvgDecimal.AppendFinalResult2Chunk ordinal p chk =
            .ok (chk.AppendMyDecimal ordinal d) ∧
          chk.AppendMyDecimal ordinal d ordinal = chk ordinal ++ [some d] ∧
          ∀ i, i ≠ ordinal → chk.AppendMyDecimal ordinal d i = chk i)) ∧
    (∀ (ordinal : Nat) (p : partialResult4AvgDistinctDecimal)
       (chk : Chunk MyDecimal),
      (p.count = 0 →
        avgOriginal4DistinctDecimal.AppendFinalResult2Chunk ordinal p chk =
          .ok (chk.AppendNull ordinal) ∧
        chk.AppendNull ordinal ordinal = chk ordinal ++ [none] ∧
        ∀ i, i ≠ ordinal → chk.AppendNull ordinal i = chk i) ∧
      (0 < p.count →
        ∃ d, DecimalDiv p.sum (NewDecFromInt p.count) DivFracIncr = .ok d ∧
          avgOriginal4DistinctDecimal.AppendFinalResult2Chunk ordinal p chk =
            .ok (chk.AppendMyDecimal ordinal d) ∧
          chk.AppendMyDecimal ordinal d ordinal = chk ordinal ++ [some d] ∧
          ∀ i, i ≠ ordinal → chk.AppendMyDecimal ordinal d i = chk i)) ∧
    (∀ (α : Type) [Div α] [IntCast α] (ordinal : Nat)
       (p : partialResult4AvgFloat64 α) (chk : Chunk α),
      (p.count = 0 →
        baseAvgFloat64.AppendFinalResult2Chunk ordinal p chk =
          .ok (chk.AppendNull ordinal) ∧
        chk.AppendNull ordinal ordinal = chk ordinal ++ [none] ∧
        ∀ i, i ≠ ordinal → chk.AppendNull ordinal i = chk i) ∧
      (0 < p.count →
        baseAvgFloat64.AppendFinalResult2Chunk ordinal p chk =
          .ok (chk.AppendFloat64 ordinal (p.sum / (p.count : α))) ∧
        chk.AppendFloat64 ordinal (p.sum / (p.count : α)) ordinal =
          chk ordinal ++ [some (p.sum / (p.count : α))] ∧
        ∀ i, i ≠ ordinal →
          chk.AppendFloat64 ordinal (p.sum / (p.count : α)) i = chk i)) ∧
    (∀ (α : Type) [Div α] [IntCast α] (ordinal : Nat)
       (p : partialResult4AvgDistinctFloat64 α) (chk : Chunk α),
      (p.count = 0 →
        avgOriginal4DistinctFloat64.AppendFinalResult2Chunk ordinal p chk =
          .ok (chk.AppendNull ordinal) ∧
        chk.AppendNull ordinal ordinal = chk ordinal ++ [none] ∧
        ∀ i, i ≠ ordinal → chk.AppendNull ordinal i = chk i) ∧
      (0 < p.count →
        avgOriginal4DistinctFloat64.AppendFinalResult2Chunk ordinal p chk =
          .ok (chk.AppendFloat64 ordinal (p.sum / (p.count : α))) ∧
        chk.AppendFloat64 ordinal (p.sum / (p.count : α)) ordinal =
          chk ordinal ++ [some (p.sum / (p.count : α))] ∧
        ∀ i, i ≠ ordinal →
          chk.AppendFloat64 ordinal (p.sum / (p.count : α)) i = chk i)) := by
  refine ⟨?_, ?_, ?_, ?_⟩
  · intro ordinal p chk
    constructor
    · intro h0
      refine ⟨?_, ?_, ?_⟩
      · simp [baseAvgDecimal.AppendFinalResult2Chunk, h0]
      · simp [Chunk.AppendNull]
      · intro i hi; simp [Chunk.AppendNull, hi]
    · intro hpos
      have hne : p.count ≠ 0 := by omega
      rw [DecimalDiv_ok_of_pos p.sum p.count DivFracIncr hne]
      refine ⟨_, rfl, ?_, ?_, ?_⟩
      · unfold baseAvgDecimal.AppendFinalResult2Chunk
        rw [if_neg hne, DecimalDiv_ok_of_pos p.sum p.count DivFracIncr hne]
      · simp [Chunk.AppendMyDecimal]
      · intro i hi; simp [Chunk.AppendMyDecimal, hi]
  · intro ordinal p chk
    constructor
    · intro h0
      refine ⟨?_, ?_, ?_⟩
      · simp [avgOriginal4DistinctDecimal.AppendFinalResult2Chunk, h0]
      · simp [Chunk.AppendNull]
      · intro i hi; simp [Chunk.AppendNull, hi]
    · intro hpos
      have hne : p.count ≠ 0 := by omega
      rw [DecimalDiv_ok_of_pos p.sum p.count DivFracIncr hne]
      refine ⟨_, rfl, ?_, ?_, ?_⟩
      · unfold avgOriginal4DistinctDecimal.AppendFinalResult2Chunk
        rw [if_neg hne, DecimalDiv_ok_of_pos p.sum p.count DivFracIncr hne]
      · simp [Chunk.AppendMyDecimal]
      · intro i hi; simp [Chunk.AppendMyDecimal, hi]
  · intro α instd insti ordinal p chk
    constructor
    · intro h0
      refine ⟨?_, ?_, ?_⟩
      · simp [baseAvgFloat64.AppendFinalResult2Chunk, h0]
      · simp [Chunk.AppendNull]
      · intro i hi; simp [Chunk.AppendNull, hi]
    · intro hpos
      have hne : p.count ≠ 0 := by omega
      refine ⟨?_, ?_, ?_⟩
      · simp [baseAvgFloat64.AppendFinalResult2Chunk, hne]
      · simp [Chunk.AppendFloat64]
      · intro i hi; simp [Chunk.AppendFloat64, hi]
  · intro α instd insti ordinal p chk
    constructor
    · intro h0
      refine ⟨?_, ?_, ?_⟩
      · simp [avgOriginal4DistinctFloat64.AppendFinalResult2Chunk, h0]
      · simp [Chunk.AppendNull]
      · intro i hi; simp [Chunk.AppendNull, hi]
    · intro hpos
      have hne : p.count ≠ 0 := by omega
      refine ⟨?_, ?_, ?_⟩
      · simp [avgOriginal4DistinctFloat64.AppendFinalResult2Chunk, hne]
      · simp [Chunk.AppendFloat64]
      · intro i hi; simp [Chunk.AppendFloat64, hi]

theorem avg_finalize_null_or_quotient_witness :
    (baseAvgDecimal.AppendFinalResult2Chunk 0 ⟨⟨0, 0⟩, 0⟩ emptyDecChunk =
      .ok (emptyDecChunk.AppendNull 0)) ∧
    (∃ d, DecimalDiv ⟨12, 0⟩ (NewDecFromInt 3) DivFracIncr = .ok d ∧
      baseAvgDecimal.AppendFinalResult2Chunk 0 ⟨⟨12, 0⟩, 3⟩ emptyDecChunk =
        .ok (emptyDecChunk.AppendMyDecimal 0 d) ∧
      emptyDecChunk.AppendMyDecimal 0 d 0 = emptyDecChunk 0 ++ [some d] ∧
      ∀ i, i ≠ 0 → emptyDecChunk.AppendMyDecimal 0 d i = emptyDecChunk i) ∧
    (avgOriginal4DistinctDecimal.AppendFinalResult2Chunk 0
        ⟨⟨0, 0⟩, 0, newDecimalSet⟩ emptyDecChunk =
      .ok (emptyDecChunk.AppendNull 0)) ∧
    (∃ d, DecimalDiv ⟨3, 0⟩ (NewDecFromInt 2) DivFracIncr = .ok d ∧
      avgOriginal4DistinctDecimal.AppendFinalResult2Chunk 0
          ⟨⟨3, 0⟩, 2, newDecimalSet⟩ emptyDecChunk =
        .ok (emptyDecChunk.AppendMyDecimal 0 d) ∧
      emptyDecChunk.AppendMyDecimal 0 d 0 = emptyDecChunk 0 ++ [some d] ∧
      ∀ i, i ≠ 0 → emptyDecChunk.AppendMyDecimal 0 d i = emptyDecChunk i) ∧
    (baseAvgFloat64.AppendFinalResult2Chunk 0 (⟨0, 0⟩ : partialResult4AvgFloat64 Int)
        emptyIntChunk = .ok (emptyIntChunk.AppendNull 0)) ∧
    (baseAvgFloat64.AppendFinalResult2Chunk 0 (⟨6, 2⟩ : partialResult4AvgFloat64 Int)
        emptyIntChunk = .ok (emptyIntChunk.AppendFloat64 0 (6 / (2 : Int)))) ∧
    (avgOriginal4DistinctFloat64.AppendFinalResult2Chunk 0
        (⟨0, 0, newFloat64Set⟩ : partialResult4AvgDistinctFloat64 Int)
        emptyIntChunk = .ok (emptyIntChunk.AppendNull 0)) ∧
    (avgOriginal4DistinctFloat64.AppendFinalResult2Chunk 0
        (⟨3, 2, newFloat64Set⟩ : partialResult4AvgDistinctFloat64 Int)
        emptyIntChunk = .ok (emptyIntChunk.AppendFloat64 0 (3 / (2 : Int)))) := by
  refine ⟨?_, ?_, ?_, ?_, ?_, ?_, ?_, ?_⟩
  · exact ((avg_finalize_null_or_quotient.1 0 ⟨⟨0, 0⟩, 0⟩ emptyDecChunk).1 rfl).1
  · exact (avg_finalize_null_or_quotient.1 0 ⟨⟨12, 0⟩, 3⟩ emptyDecChunk).2
      (by decide)
  · exact ((avg_finalize_null_or_quotient.2.1 0 ⟨⟨0, 0⟩, 0, newDecimalSet⟩
      emptyDecChunk).1 rfl).1
  · exact (avg_finalize_null_or_quotient.2.1 0 ⟨⟨3, 0⟩, 2, newDecimalSet⟩
      emptyDecChunk).2 (by decide)
  · exact ((avg_finalize_null_or_quotient.2.2.1 Int 0 ⟨0, 0⟩ emptyIntChunk).1
      rfl).1
  · exact ((avg_finalize_null_or_quotient.2.2.1 Int 0 ⟨6, 2⟩ emptyIntChunk).2
      (by decide)).1
  · exact ((avg_finalize_null_or_quotient.2.2.2 Int 0 ⟨0, 0, newFloat64Set⟩
      emptyIntChunk).1 rfl).1
  · exact ((avg_finalize_null_or_quotient.2.2.2 Int 0 ⟨3, 2, newFloat64Set⟩
      emptyIntChunk).2 (by decide)).1

theorem decSet_exist_insert_self (s : decimalSet) (v : MyDecimal) :
    (s.insert v).exist v = true := by
  simp [decimalSet.insert, decimalSet.exist]

theorem f64Set_exist_insert_self {α : Type} [DecidableEq α]
    (s : float64Set α) (x : α) : (s.insert x).exist x = true := by
  simp [float64Set.insert, float64Set.exist]

theorem distinctDec_skip_replicate
    (ov : MyDecimal → MyDecimal → Bool) (v : MyDecimal) :
    ∀ (n : Nat) (p : partialResult4AvgDistinctDecimal),
    p.valSet.exist v = true →
    avgOriginal4DistinctDecimal.UpdatePartialResult ov
      (List.replicate n (.val v)) p = (p, none) := by
  intro n
  induction n with
  | zero => intro p h; rfl
  | succ n ih =>
    intro p h
    rw [List.replicate_succ]
    simp only [avgOriginal4DistinctDecimal.UpdatePartialResult, h, if_true]
    exact ih p h

theorem distinctF_skip_replicate {α : Type} [Add α]
    [DecidableEq α] (v : α) :
    ∀ (n : Nat) (p : partialResult4AvgDistinctFloat64 α),
    p.valSet.exist v = true →
    avgOriginal4DistinctFloat64.UpdatePartialResult
      (List.replicate n (.val v)) p = (p, none) := by
  intro n
  induction n with
  | zero => intro p h; rfl
  | succ n ih =>
    intro p h
    rw [List.replicate_succ]
    simp only [avgOriginal4DistinctFloat64.UpdatePartialResult, h, if_true]
    exact ih p h

/-- Claim C4: distinct variants, decimal and float.  A value already present
in the dedup set contributes to neither sum nor count: the row is skipped
outright.  Repeating the same value N times (N at least 1) contributes it
exactly once to both sum and count, with the first non-null occurrence both
accumulated and inserted into the set. -/
theorem avg_distinct_dedup :
    (∀ (ov : MyDecimal → MyDecimal → Bool)
       (p : partialResult4AvgDistinctDecimal) (v : MyDecimal)
       (rest : List (EvalResult MyDecimal)),
      p.valSet.exist v = true →
      avgOriginal4DistinctDecimal.UpdatePartialResult ov (.val v :: rest) p =
        avgOriginal4DistinctDecimal.UpdatePartialResult ov rest p) ∧
    (∀ (ov : MyDecimal → MyDecimal → Bool)
       (p : partialResult4AvgDistinctDecimal) (v : MyDecimal) (N : Nat),
      1 ≤ N → p.valSet.exist v = false → ov p.sum v = false →
      avgOriginal4DistinctDecimal.UpdatePartialResult ov
        (List.replicate N (.val v)) p =
        (⟨DecimalAddVal p.sum v, p.count + 1, p.valSet.insert v⟩, none)) ∧
    (∀ (α : Type) [Add α] [DecidableEq α]
       (p : partialResult4AvgDistinctFloat64 α) (v : α)
       (rest : List (EvalResult α)),
      p.valSet.exist v = true →
      avgOriginal4DistinctFloat64.UpdatePartialResult (.val v :: rest) p =
        avgOriginal4DistinctFloat64.UpdatePartialResult rest p) ∧
    (∀ (α : Type) [Add α] [DecidableEq α]
       (p : partialResult4AvgDistinctFloat64 α) (v : α) (N : Nat),
      1 ≤ N → p.valSet.exist v = false →
      avgOriginal4DistinctFloat64.UpdatePartialResult
        (List.replicate N (.val v)) p =
        (⟨p.sum + v, p.count + 1, p.valSet.insert v⟩, none)) := by
  refine ⟨?_, ?_, ?_, ?_⟩
  · intro ov p v rest h
    simp only [avgOriginal4DistinctDecimal.UpdatePartialResult, h, if_true]
  · intro ov p v N hN hex hov
    obtain ⟨n, rfl⟩ : ∃ n, N = n + 1 := ⟨N - 1, by omega⟩
    rw [List.replicate_succ]
    simp only [avgOriginal4DistinctDecimal.UpdatePartialResult, hex,
      Bool.false_eq_true, if_false, DecimalAdd, hov]
    exact distinctDec_skip_replicate ov v n _
      (decSet_exist_insert_self p.valSet v)
  · intro α inst instd p v rest h
    simp only [avgOriginal4DistinctFloat64.UpdatePartialResult, h, if_true]
  · intro α inst instd p v N hN hex
    obtain ⟨n, rfl⟩ : ∃ n, N = n + 1 := ⟨N - 1, by omega⟩
    rw [List.replicate_succ]
    simp only [avgOriginal4DistinctFloat64.UpdatePartialResult, hex,
      Bool.false_eq_true, if_false]
    exact distinctF_skip_replicate v n _
      (f64Set_exist_insert_self p.valSet v)

theorem avg_distinct_dedup_witness :
    (avgOriginal4DistinctDecimal.UpdatePartialResult ovNever
        [.val ⟨1, 0⟩] ⟨⟨1, 0⟩, 1, [⟨1, 0⟩]⟩ =
      avgOriginal4DistinctDecimal.UpdatePartialResult ovNever []
        ⟨⟨1, 0⟩, 1, [⟨1, 0⟩]⟩) ∧
    (avgOriginal4DistinctDecimal.UpdatePartialResult ovNever
        (List.replicate 3 (.val ⟨1, 0⟩))
        avgOriginal4DistinctDecimal.AllocPartialResult =
      (⟨DecimalAddVal ⟨0, 0⟩ ⟨1, 0⟩, 0 + 1, newDecimalSet.insert ⟨1, 0⟩⟩,
        none)) ∧
    (avgOriginal4DistinctFloat64.UpdatePartialResult
        [.val (5 : Int)] ⟨5, 1, [5]⟩ =
      avgOriginal4DistinctFloat64.UpdatePartialResult [] ⟨5, 1, [5]⟩) ∧
    (avgOriginal4DistinctFloat64.UpdatePartialResult
        (List.replicate 2 (.val (7 : Int)))
        avgOriginal4DistinctFloat64.AllocPartialResult =
      ((⟨0 + 7, 0 + 1, newFloat64Set.insert 7⟩ :
          partialResult4AvgDistinctFloat64 Int), none)) :=
  ⟨avg_distinct_dedup.1 ovNever ⟨⟨1, 0⟩, 1, [⟨1, 0⟩]⟩ ⟨1, 0⟩ []
      (decSet_exist_insert_self [] ⟨1, 0⟩),
    avg_distinct_dedup.2.1 ovNever avgOriginal4DistinctDecimal.AllocPartialResult
      ⟨1, 0⟩ 3 (by decide) rfl rfl,
    avg_distinct_dedup.2.2.1 Int ⟨5, 1, [5]⟩ 5 [] (by decide),
    avg_distinct_dedup.2.2.2 Int avgOriginal4DistinctFloat64.AllocPartialResult
      7 2 (by decide) (by decide)⟩

/-- Claim C5: merge-phase update, decimal and float.  A row whose
pre-aggregated sum or count evaluates to null is skipped entirely, changing
neither sum nor count; otherwise the pre-aggregated sum is added into the
accumulator sum (exact decimal add, plain float add) and the pre-aggregated
count added into the accumulator count. -/
theorem avg_merge_row_semantics :
    (∀ (ov : MyDecimal → MyDecimal → Bool) (row : MergeRow MyDecimal)
       (rest : List (MergeRow MyDecimal)) (p : partialResult4AvgDecimal),
      row.sumEval = .null →
      avgPartial4Decimal.UpdatePartialResult ov (row :: rest) p =
        avgPartial4Decimal.UpdatePartialResult ov rest p) ∧
    (∀ (ov : MyDecimal → MyDecimal → Bool) (row : MergeRow MyDecimal)
       (rest : List (MergeRow MyDecimal)) (p : partialResult4AvgDecimal)
       (s : MyDecimal),
      row.sumEval = .val s → row.countEval = .null →
      avgPartial4Decimal.UpdatePartialResult ov (row :: rest) p =
        avgPartial4Decimal.UpdatePartialResult ov rest p) ∧
    (∀ (ov : MyDecimal → MyDecimal → Bool) (row : MergeRow MyDecimal)
       (rest : List (MergeRow MyDecimal)) (p : partialResult4AvgDecimal)
       (s : MyDecimal) (c : Int),
      row.sumEval = .val s → row.countEval = .val c → ov p.sum s = false →
      avgPartial4Decimal.UpdatePartialResult ov (row :: rest) p =
        avgPartial4Decimal.UpdatePartialResult ov rest
          ⟨DecimalAddVal p.sum s, p.count + c⟩) ∧
    (∀ (α : Type) [Add α] (row : MergeRow α) (rest : List (MergeRow α))
       (p : partialResult4AvgFloat64 α),
      row.sumEval = .null →
      avgPartial4Float64.UpdatePartialResult (row :: rest) p =
        avgPartial4Float64.UpdatePartialResult rest p) ∧
    (∀ (α : Type) [Add α] (row : MergeRow α) (rest : List (MergeRow α))
       (p : partialResult4AvgFloat64 α) (s : α),
      row.sumEval = .val s → row.countEval = .null →
      avgPartial4Float64.UpdatePartialResult (row :: rest) p =
        avgPartial4Float64.UpdatePartialResult rest p) ∧
    (∀ (α : Type) [Add α] (row : MergeRow α) (rest : List (MergeRow α))
       (p : partialResult4AvgFloat64 α) (s : α) (c : Int),
      row.sumEval = .val s → row.countEval = .val c →
      avgPartial4Float64.UpdatePartialResult (row :: rest) p =
        avgPartial4Float64.UpdatePartialResult rest
          ⟨p.sum + s, p.count + c⟩) := by
  refine ⟨?_, ?_, ?_, ?_, ?_, ?_⟩
  · intro ov row rest p hs
    simp only [avgPartial4Decimal.UpdatePartialResult, hs]
  · intro ov row rest p s hs hc
    simp only [avgPartial4Decimal.UpdatePartialResult, hs, hc]
  · intro ov row rest p s c hs hc hov
    simp only [avgPartial4Decimal.UpdatePartialResult, hs, hc, DecimalAdd, hov,
      Bool.false_eq_true, if_false]
  · intro α inst row rest p hs
    simp only [avgPartial4Float64.UpdatePartialResult, hs]
  · intro α inst row rest p s hs hc
    simp only [avgPartial4Float64.UpdatePartialResult, hs, hc]
  · intro α inst row rest p s c hs hc
    simp only [avgPartial4Float64.UpdatePartialResult, hs, hc]

theorem avg_merge_row_semantics_witness :
    (avgPartial4Decimal.UpdatePartialResult ovNever
        [⟨.null, .val 1⟩] ⟨⟨5, 0⟩, 1⟩ =
      avgPartial4Decimal.UpdatePartialResult ovNever [] ⟨⟨5, 0⟩, 1⟩) ∧
    (avgPartial4Decimal.UpdatePartialResult ovNever
        [⟨.val ⟨1, 0⟩, .null⟩] ⟨⟨5, 0⟩, 1⟩ =
      avgPartial4Decimal.UpdatePartialResult ovNever [] ⟨⟨5, 0⟩, 1⟩) ∧
    (avgPartial4Decimal.UpdatePartialResult ovNever
        [⟨.val ⟨1, 0⟩, .val 2⟩] ⟨⟨5, 0⟩, 1⟩ =
      avgPartial4Decimal.UpdatePartialResult ovNever []
        ⟨DecimalAddVal ⟨5, 0⟩ ⟨1, 0⟩, 1 + 2⟩) ∧
    (avgPartial4Float64.UpdatePartialResult
        [(⟨.null, .val 1⟩ : MergeRow Int)] ⟨5, 1⟩ =
      avgPartial4Float64.UpdatePartialResult [] ⟨5, 1⟩) ∧
    (avgPartial4Float64.UpdatePartialResult
        [(⟨.val 1, .null⟩ : MergeRow Int)] ⟨5, 1⟩ =
      avgPartial4Float64.UpdatePartialResult [] ⟨5, 1⟩) ∧
    (avgPartial4Float64.UpdatePartialResult
        [(⟨.val 1, .val 2⟩ : MergeRow Int)] ⟨5, 1⟩ =
      avgPartial4Float64.UpdatePartialResult [] ⟨5 + 1, 1 + 2⟩) :=
  ⟨avg_merge_row_semantics.1 ovNever ⟨.null, .val 1⟩ [] ⟨⟨5, 0⟩, 1⟩ rfl,
    avg_merge_row_semantics.2.1 ovNever ⟨.val ⟨1, 0⟩, .null⟩ [] ⟨⟨5, 0⟩, 1⟩
      ⟨1, 0⟩ rfl rfl,
    avg_merge_row_semantics.2.2.1 ovNever ⟨.val ⟨1, 0⟩, .val 2⟩ [] ⟨⟨5, 0⟩, 1⟩
      ⟨1, 0⟩ 2 rfl rfl rfl,
    avg_merge_row_semantics.2.2.2.1 Int ⟨.null, .val 1⟩ [] ⟨5, 1⟩ rfl,
    avg_merge_row_semantics.2.2.2.2.1 Int ⟨.val 1, .null⟩ [] ⟨5, 1⟩ 1 rfl rfl,
    avg_merge_row_semantics.2.2.2.2.2 Int ⟨.val 1, .val 2⟩ [] ⟨5, 1⟩ 1 2
      rfl rfl⟩

/-- Claim C6, counterexample: a merge-phase row whose pre-aggregated sum
expression evaluates to null but whose count expression evaluation fails is
skipped silently — the update returns no error, in both the decimal and the
float merge variant, contradicting the claim that an error in any source
expression, including the merge-phase count expression, is always
propagated. -/
theorem avg_update_error_propagation_cex :
    avgPartial4Decimal.UpdatePartialResult ovNever
        [⟨.null, .err (.evalError 7)⟩] baseAvgDecimal.AllocPartialResult =
      (baseAvgDecimal.AllocPartialResult, none) ∧
    avgPartial4Float64.UpdatePartialResult
        [(⟨.null, .err (.evalError 7)⟩ : MergeRow Int)]
        baseAvgFloat64.AllocPartialResult =
      (baseAvgFloat64.AllocPartialResult, none) :=
  ⟨rfl, rfl⟩

/-- Claim C6 as amended: for every variant, update propagates the error of
the first failing evaluation it actually performs — the original-phase
source expression, the merge-phase sum expression, or the merge-phase count
expression when that row's sum evaluated non-null (a failing count
expression on a row whose sum is null is skipped with the row) — and the
decimal add's overflow error; the batch aborts at that row and the rows
already applied remain applied (the accumulator returned is the one reached
before the failing row). -/
theorem avg_update_error_propagation :
    (∀ (ov : MyDecimal → MyDecimal → Bool)
       (pre rest : List (EvalResult MyDecimal))
       (p q : partialResult4AvgDecimal) (e : AggError),
      avgOriginal4Decimal.UpdatePartialResult ov pre p = (q, none) →
      avgOriginal4Decimal.UpdatePartialResult ov (pre ++ .err e :: rest) p =
        (q, some e)) ∧
    (∀ (ov : MyDecimal → MyDecimal → Bool)
       (pre rest : List (EvalResult MyDecimal))
       (p q : partialResult4AvgDecimal) (v : MyDecimal),
      avgOriginal4Decimal.UpdatePartialResult ov pre p = (q, none) →
      ov q.sum v = true →
      avgOriginal4Decimal.UpdatePartialResult ov (pre ++ .val v :: rest) p =
        (q, some .decOverflow)) ∧
    (∀ (ov : MyDecimal → MyDecimal → Bool)
       (pre rest : List (MergeRow MyDecimal))
       (p q : partialResult4AvgDecimal) (e : AggError) (ce : EvalResult Int),
      avgPartial4Decimal.UpdatePartialResult ov pre p = (q, none) →
      avgPartial4Decimal.UpdatePartialResult ov
        (pre ++ ⟨.err e, ce⟩ :: rest) p = (q, some e)) ∧
    (∀ (ov : MyDecimal → MyDecimal → Bool)
       (pre rest : List (MergeRow MyDecimal))
       (p q : partialResult4AvgDecimal) (s : MyDecimal) (e : AggError),
      avgPartial4Decimal.UpdatePartialResult ov pre p = (q, none) →
      avgPartial4Decimal.UpdatePartialResult ov
        (pre ++ ⟨.val s, .err e⟩ :: rest) p = (q, some e)) ∧
    (∀ (ov : MyDecimal → MyDecimal → Bool)
       (pre rest : List (MergeRow MyDecimal))
       (p q : partialResult4AvgDecimal) (s : MyDecimal) (c : Int),
      avgPartial4Decimal.UpdatePartialResult ov pre p = (q, none) →
      ov q.sum s = true →
      avgPartial4Decimal.UpdatePartialResult ov
        (pre ++ ⟨.val s, .val c⟩ :: rest) p = (q, some .decOverflow)) ∧
    (∀ (ov : MyDecimal → MyDecimal → Bool)
       (pre rest : List (EvalResult MyDecimal))
       (p q : partialResult4AvgDistinctDecimal) (e : AggError),
      avgOriginal4DistinctDecimal.UpdatePartialResult ov pre p = (q, none) →
      avgOriginal4DistinctDecimal.UpdatePartialResult ov
        (pre ++ .err e :: rest) p = (q, some e)) ∧
    (∀ (ov : MyDecimal → MyDecimal → Bool)
       (pre rest : List (EvalResult MyDecimal))
       (p q : partialResult4AvgDistinctDecimal) (v : MyDecimal),
      avgOriginal4DistinctDecimal.UpdatePartialResult ov pre p = (q, none) →
      q.valSet.exist v = false → ov q.sum v = true →
      avgOriginal4DistinctDecimal.UpdatePartialResult ov
        (pre ++ .val v :: rest) p = (q, some .decOverflow)) ∧
    (∀ (α : Type) [Add α] (pre rest : List (EvalResult α))
       (p q : partialResult4AvgFloat64 α) (e : AggError),
      avgOriginal4Float64.UpdatePartialResult pre p = (q, none) →
      avgOriginal4Float64.UpdatePartialResult (pre ++ .err e :: rest) p =
        (q, some e)) ∧
    (∀ (α : Type) [Add α] (pre rest : List (MergeRow α))
       (p q : partialResult4AvgFloat64 α) (e : AggError) (ce : EvalResult Int),
      avgPartial4Float64.UpdatePartialResult pre p = (q, none) →
      avgPartial4Float64.UpdatePartialResult (pre ++ ⟨.err e, ce⟩ :: rest) p =
        (q, some e)) ∧
    (∀ (α : Type) [Add α] (pre rest : List (MergeRow α))
       (p q : partialResult4AvgFloat64 α) (s : α) (e : AggError),
      avgPartial4Float64.UpdatePartialResult pre p = (q, none) →
      avgPartial4Float64.UpdatePartialResult
        (pre ++ ⟨.val s, .err e⟩ :: rest) p = (q, some e)) ∧
    (∀ (α : Type) [Add α] [DecidableEq α] (pre rest : List (EvalResult α))
       (p q : partialResult4AvgDistinctFloat64 α) (e : AggError),
      avgOriginal4DistinctFloat64.UpdatePartialResult pre p = (q, none) →
      avgOriginal4DistinctFloat64.UpdatePartialResult
        (pre ++ .err e :: rest) p = (q, some e)) := by
  refine ⟨?_, ?_, ?_, ?_, ?_, ?_, ?_, ?_, ?_, ?_, ?_⟩
  · intro ov pre rest p q e h
    rw [origDec_update_append_ok ov pre _ p q h]
    rfl
  · intro ov pre rest p q v h hov
    rw [origDec_update_append_ok ov pre _ p q h]
    simp [avgOriginal4Decimal.UpdatePartialResult, DecimalAdd, hov]
  · intro ov pre rest p q e ce h
    rw [mergeDec_update_append_ok ov pre _ p q h]
    rfl
  · intro ov pre rest p q s e h
    rw [mergeDec_update_append_ok ov pre _ p q h]
    rfl
  · intro ov pre rest p q s c h hov
    rw [mergeDec_update_append_ok ov pre _ p q h]
    simp [avgPartial4Decimal.UpdatePartialResult, DecimalAdd, hov]
  · intro ov pre rest p q e h
    rw [distinctDec_update_append_ok ov pre _ p q h]
    rfl
  · intro ov pre rest p q v h hex hov
    rw [distinctDec_update_append_ok ov pre _ p q h]
    simp [avgOriginal4DistinctDecimal.UpdatePartialResult, hex, DecimalAdd, hov]
  · intro α inst pre rest p q e h
    rw [origF_update_append_ok pre _ p q h]
    rfl
  · intro α inst pre rest p q e ce h
    rw [mergeF_update_append_ok pre _ p q h]
    rfl
  · intro α inst pre rest p q s e h
    rw [mergeF_update_append_ok pre _ p q h]
    rfl
  · intro α inst instd pre rest p q e h
    rw [distinctF_update_append_ok pre _ p q h]
    rfl

theorem avg_update_error_propagation_witness :
    (avgOriginal4Decimal.UpdatePartialResult ovNever [.err (.evalError 3)]
        ⟨⟨0, 0⟩, 0⟩ = (⟨⟨0, 0⟩, 0⟩, some (.evalError 3))) ∧
    (avgOriginal4Decimal.UpdatePartialResult ovAlways [.val ⟨1, 0⟩]
        ⟨⟨0, 0⟩, 0⟩ = (⟨⟨0, 0⟩, 0⟩, some .decOverflow)) ∧
    (avgPartial4Decimal.UpdatePartialResult ovNever
        [⟨.err (.evalError 3), .val 1⟩] ⟨⟨0, 0⟩, 0⟩ =
      (⟨⟨0, 0⟩, 0⟩, some (.evalError 3))) ∧
    (avgPartial4Decimal.UpdatePartialResult ovNever
        [⟨.val ⟨1, 0⟩, .err (.evalError 3)⟩] ⟨⟨0, 0⟩, 0⟩ =
      (⟨⟨0, 0⟩, 0⟩, some (.evalError 3))) ∧
    (avgPartial4Decimal.UpdatePartialResult ovAlways
        [⟨.val ⟨1, 0⟩, .val 2⟩] ⟨⟨0, 0⟩, 0⟩ =
      (⟨⟨0, 0⟩, 0⟩, some .decOverflow)) ∧
    (avgOriginal4DistinctDecimal.UpdatePartialResult ovNever
        [.err (.evalError 3)] ⟨⟨0, 0⟩, 0, newDecimalSet⟩ =
      (⟨⟨0, 0⟩, 0, newDecimalSet⟩, some (.evalError 3))) ∧
    (avgOriginal4DistinctDecimal.UpdatePartialResult ovAlways
        [.val ⟨1, 0⟩] ⟨⟨0, 0⟩, 0, newDecimalSet⟩ =
      (⟨⟨0, 0⟩, 0, newDecimalSet⟩, some .decOverflow)) ∧
    (avgOriginal4Float64.UpdatePartialResult [.err (.evalError 3)]
        (⟨0, 0⟩ : partialResult4AvgFloat64 Int) =
      (⟨0, 0⟩, some (.evalError 3))) ∧
    (avgPartial4Float64.UpdatePartialResult
        [(⟨.err (.evalError 3), .val 1⟩ : MergeRow Int)] ⟨0, 0⟩ =
      (⟨0, 0⟩, some (.evalError 3))) ∧
    (avgPartial4Float64.UpdatePartialResult
        [(⟨.val 1, .err (.evalError 3)⟩ : MergeRow Int)] ⟨0, 0⟩ =
      (⟨0, 0⟩, some (.evalError 3))) ∧
    (avgOriginal4DistinctFloat64.UpdatePartialResult [.err (.evalError 3)]
        (⟨0, 0, newFloat64Set⟩ : partialResult4AvgDistinctFloat64 Int) =
      (⟨0, 0, newFloat64Set⟩, some (.evalError 3))) :=
  ⟨avg_update_error_propagation.1 ovNever [] [] ⟨⟨0, 0⟩, 0⟩ ⟨⟨0, 0⟩, 0⟩
      (.evalError 3) rfl,
    avg_update_error_propagation.2.1 ovAlways [] [] ⟨⟨0, 0⟩, 0⟩ ⟨⟨0, 0⟩, 0⟩
      ⟨1, 0⟩ rfl rfl,
    avg_update_error_propagation.2.2.1 ovNever [] [] ⟨⟨0, 0⟩, 0⟩ ⟨⟨0, 0⟩, 0⟩
      (.evalError 3) (.val 1) rfl,
    avg_update_error_propagation.2.2.2.1 ovNever [] [] ⟨⟨0, 0⟩, 0⟩
      ⟨⟨0, 0⟩, 0⟩ ⟨1, 0⟩ (.evalError 3) rfl,
    avg_update_error_propagation.2.2.2.2.1 ovAlways [] [] ⟨⟨0, 0⟩, 0⟩
      ⟨⟨0, 0⟩, 0⟩ ⟨1, 0⟩ 2 rfl rfl,
    avg_update_error_propagation.2.2.2.2.2.1 ovNever [] []
      ⟨⟨0, 0⟩, 0, newDecimalSet⟩ ⟨⟨0, 0⟩, 0, newDecimalSet⟩ (.evalError 3) rfl,
    avg_update_error_propagation.2.2.2.2.2.2.1 ovAlways [] []
      ⟨⟨0, 0⟩, 0, newDecimalSet⟩ ⟨⟨0, 0⟩, 0, newDecimalSet⟩ ⟨1, 0⟩ rfl rfl rfl,
    avg_update_error_propagation.2.2.2.2.2.2.2.1 Int [] [] ⟨0, 0⟩ ⟨0, 0⟩
      (.evalError 3) rfl,
    avg_update_error_propagation.2.2.2.2.2.2.2.2.1 Int [] [] ⟨0, 0⟩ ⟨0, 0⟩
      (.evalError 3) (.val 1) rfl,
    avg_update_error_propagation.2.2.2.2.2.2.2.2.2.1 Int [] [] ⟨0, 0⟩ ⟨0, 0⟩
      1 (.evalError 3) rfl,
    avg_update_error_propagation.2.2.2.2.2.2.2.2.2.2 Int [] []
      ⟨0, 0, newFloat64Set⟩ ⟨0, 0, newFloat64Set⟩ (.evalError 3) rfl⟩

/-- Claim C7: decimal finalize division.  For a positive count the final
decimal result is obtained by first converting the integer count to the
exact-decimal representation (no fractional digits, same numeric value)
and dividing the sum by it under the fractional-increment convention, so
the result's fractional digit count is the sum's extended by the fixed
increment; the quotient is the single value appended.  Stated for both the
decimal base finalizer and the distinct decimal finalizer. -/
theorem avg_decimal_finalize_division :
    (∀ (ordinal : Nat) (p : partialResult4AvgDecimal) (chk : Chunk MyDecimal),
      0 < p.count →
      ∃ d, DecimalDiv p.sum (NewDecFromInt p.count) DivFracIncr = .ok d ∧
        (NewDecFromInt p.count).frac = 0 ∧
        (NewDecFromInt p.count).toRat = (p.count : ℚ) ∧
        d.frac = p.sum.frac + DivFracIncr ∧
        baseAvgDecimal.AppendFinalResult2Chunk ordinal p chk =
          .ok (chk.AppendMyDecimal ordinal d)) ∧
    (∀ (ordinal : Nat) (p : partialResult4AvgDistinctDecimal)
       (chk : Chunk MyDecimal),
      0 < p.count →
      ∃ d, DecimalDiv p.sum (NewDecFromInt p.count) DivFracIncr = .ok d ∧
        (NewDecFromInt p.count).frac = 0 ∧
        (NewDecFromInt p.count).toRat = (p.count : ℚ) ∧
        d.frac = p.sum.frac + DivFracIncr ∧
        avgOriginal4DistinctDecimal.AppendFinalResult2Chunk ordinal p chk =
          .ok (chk.AppendMyDecimal ordinal d)) := by
  constructor
  · intro ordinal p chk hpos
    have hne : p.count ≠ 0 := by omega
    rw [DecimalDiv_ok_of_pos p.sum p.count DivFracIncr hne]
    refine ⟨_, rfl, rfl, NewDecFromInt_toRat p.count, rfl, ?_⟩
    unfold baseAvgDecimal.AppendFinalResult2Chunk
    rw [if_neg hne, DecimalDiv_ok_of_pos p.sum p.count DivFracIncr hne]
  · intro ordinal p chk hpos
    have hne : p.count ≠ 0 := by omega
    rw [DecimalDiv_ok_of_pos p.sum p.count DivFracIncr hne]
    refine ⟨_, rfl, rfl, NewDecFromInt_toRat p.count, rfl, ?_⟩
    unfold avgOriginal4DistinctDecimal.AppendFinalResult2Chunk
    rw [if_neg hne, DecimalDiv_ok_of_pos p.sum p.count DivFracIncr hne]

theorem avg_decimal_finalize_division_witness :
    (∃ d, DecimalDiv ⟨12, 0⟩ (NewDecFromInt 3) DivFracIncr = .ok d ∧
      (NewDecFromInt (3 : Int)).frac = 0 ∧
      (NewDecFromInt (3 : Int)).toRat = ((3 : Int) : ℚ) ∧
      d.frac = 0 + DivFracIncr ∧
      baseAvgDecimal.AppendFinalResult2Chunk 0 ⟨⟨12, 0⟩, 3⟩ emptyDecChunk =
        .ok (emptyDecChunk.AppendMyDecimal 0 d)) ∧
    (∃ d, DecimalDiv ⟨3, 0⟩ (NewDecFromInt 2) DivFracIncr = .ok d ∧
      (NewDecFromInt (2 : Int)).frac = 0 ∧
      (NewDecFromInt (2 : Int)).toRat = ((2 : Int) : ℚ) ∧
      d.frac = 0 + DivFracIncr ∧
      avgOriginal4DistinctDecimal.AppendFinalResult2Chunk 0
          ⟨⟨3, 0⟩, 2, newDecimalSet⟩ emptyDecChunk =
        .ok (emptyDecChunk.AppendMyDecimal 0 d)) :=
  ⟨avg_decimal_finalize_division.1 0 ⟨⟨12, 0⟩, 3⟩ emptyDecChunk (by decide),
    avg_decimal_finalize_division.2 0 ⟨⟨3, 0⟩, 2, newDecimalSet⟩ emptyDecChunk
      (by decide)⟩

/-- Claim C8: allocate and reset.  Every variant's allocate returns a fresh
accumulator with zero sum, zero count and, for the distinct variants, an
empty value set, with no error path (the operations are total functions);
and reset maps every existing accumulator to exactly that same zero state,
so resetting equals fresh allocation. -/
theorem avg_alloc_reset_zero_state :
    (baseAvgDecimal.AllocPartialResult.sum.toRat = 0 ∧
      baseAvgDecimal.AllocPartialResult.count = 0 ∧
      ∀ p, baseAvgDecimal.ResetPartialResult p =
        baseAvgDecimal.AllocPartialResult) ∧
    (avgOriginal4DistinctDecimal.AllocPartialResult.sum.toRat = 0 ∧
      avgOriginal4DistinctDecimal.AllocPartialResult.count = 0 ∧
      avgOriginal4DistinctDecimal.AllocPartialResult.valSet = newDecimalSet ∧
      ∀ p, avgOriginal4DistinctDecimal.ResetPartialResult p =
        avgOriginal4DistinctDecimal.AllocPartialResult) ∧
    (∀ (α : Type) [Zero α],
      (baseAvgFloat64.AllocPartialResult : partialResult4AvgFloat64 α).sum = 0 ∧
      (baseAvgFloat64.AllocPartialResult : partialResult4AvgFloat64 α).count = 0 ∧
      ∀ p : partialResult4AvgFloat64 α,
        baseAvgFloat64.ResetPartialResult p = baseAvgFloat64.AllocPartialResult) ∧
    (∀ (α : Type) [Zero α],
      (avgOriginal4DistinctFloat64.AllocPartialResult :
        partialResult4AvgDistinctFloat64 α).sum = 0 ∧
      (avgOriginal4DistinctFloat64.AllocPartialResult :
        partialResult4AvgDistinctFloat64 α).count = 0 ∧
      (avgOriginal4DistinctFloat64.AllocPartialResult :
        partialResult4AvgDistinctFloat64 α).valSet = newFloat64Set ∧
      ∀ p : partialResult4AvgDistinctFloat64 α,
        avgOriginal4DistinctFloat64.ResetPartialResult p =
          avgOriginal4DistinctFloat64.AllocPartialResult) := by
  refine ⟨⟨?_, rfl, fun p => rfl⟩, ⟨?_, rfl, rfl, fun p => rfl⟩,
    fun α _ => ⟨rfl, rfl, fun p => rfl⟩, fun α _ => ⟨rfl, rfl, rfl, fun p => rfl⟩⟩
  · simp [baseAvgDecimal.AllocPartialResult, MyDecimal.toRat]
  · simp [avgOriginal4DistinctDecimal.AllocPartialResult, MyDecimal.toRat]

/-- Claim C9: the float variants fail only on expression evaluation.  When
no row carries a failed evaluation, every float update returns no error;
and the float finalizers return success for every accumulator state — the
floating add and divide have no error path. -/
theorem avg_float_no_arithmetic_errors :
    (∀ (α : Type) [Add α] (rows : List (EvalResult α))
       (p : partialResult4AvgFloat64 α),
      (∀ e, EvalResult.err e ∉ rows) →
      (avgOriginal4Float64.UpdatePartialResult rows p).2 = none) ∧
    (∀ (α : Type) [Add α] (rows : List (MergeRow α))
       (p : partialResult4AvgFloat64 α),
      (∀ r ∈ rows, (∀ e, r.sumEval ≠ .err e) ∧ (∀ e, r.countEval ≠ .err e)) →
      (avgPartial4Float64.UpdatePartialResult rows p).2 = none) ∧
    (∀ (α : Type) [Add α] [DecidableEq α] (rows : List (EvalResult α))
       (p : partialResult4AvgDistinctFloat64 α),
      (∀ e, EvalResult.err e ∉ rows) →
      (avgOriginal4DistinctFloat64.UpdatePartialResult rows p).2 = none) ∧
    (∀ (α : Type) [Div α] [IntCast α] (ordinal : Nat)
       (p : partialResult4AvgFloat64 α) (chk : Chunk α),
      ∃ c, baseAvgFloat64.AppendFinalResult2Chunk ordinal p chk = .ok c) ∧
    (∀ (α : Type) [Div α] [IntCast α] (ordinal : Nat)
       (p : partialResult4AvgDistinctFloat64 α) (chk : Chunk α),
      ∃ c, avgOriginal4DistinctFloat64.AppendFinalResult2Chunk ordinal p chk =
        .ok c) := by
  refine ⟨?_, ?_, ?_, ?_, ?_⟩
  · intro α inst rows
    induction rows with
    | nil => intro p h; rfl
    | cons r rest ih =>
      intro p h
      cases r with
      | err e => exact absurd (List.mem_cons_self _ _) (fun hm => (h e) hm)
      | null =>
        simp only [avgOriginal4Float64.UpdatePartialResult]
        exact ih p fun e hm => h e (List.mem_cons_of_mem _ hm)
      | val v =>
        simp only [avgOriginal4Float64.UpdatePartialResult]
        exact ih _ fun e hm => h e (List.mem_cons_of_mem _ hm)
  · intro α inst rows
    induction rows with
    | nil => intro p h; rfl
    | cons r rest ih =>
      intro p h
      obtain ⟨hs, hc⟩ := h r (List.mem_cons_self _ _)
      have hrest : ∀ x ∈ rest, (∀ e, x.sumEval ≠ .err e) ∧
          (∀ e, x.countEval ≠ .err e) :=
        fun x hm => h x (List.mem_cons_of_mem _ hm)
      cases hse : r.sumEval with
      | err e => exact absurd hse (hs e)
      | null =>
        simp only [avgPartial4Float64.UpdatePartialResult, hse]
        exact ih p hrest
      | val s =>
        cases hce : r.countEval with
        | err e => exact absurd hce (hc e)
        | null =>
          simp only [avgPartial4Float64.UpdatePartialResult, hse, hce]
          exact ih p hrest
        | val c =>
          simp only [avgPartial4Float64.UpdatePartialResult, hse, hce]
          exact ih _ hrest
  · intro α inst instd rows
    induction rows with
    | nil => intro p h; rfl
    | cons r rest ih =>
      intro p h
      cases r with
      | err e => exact absurd (List.mem_cons_self _ _) (fun hm => (h e) hm)
      | null =>
        simp only [avgOriginal4DistinctFloat64.UpdatePartialResult]
        exact ih p fun e hm => h e (List.mem_cons_of_mem _ hm)
      | val v =>
        simp only [avgOriginal4DistinctFloat64.UpdatePartialResult]
        by_cases hex : p.valSet.exist v
        · rw [if_pos hex]
          exact ih p fun e hm => h e (List.mem_cons_of_mem _ hm)
        · rw [if_neg hex]
          exact ih _ fun e hm => h e (List.mem_cons_of_mem _ hm)
  · intro α instd insti ordinal p chk
    unfold baseAvgFloat64.AppendFinalResult2Chunk
    by_cases h0 : p.count = 0
    · rw [if_pos h0]; exact ⟨_, rfl⟩
    · rw [if_neg h0]; exact ⟨_, rfl⟩
  · intro α instd insti ordinal p chk
    unfold avgOriginal4DistinctFloat64.AppendFinalResult2Chunk
    by_cases h0 : p.count = 0
    · rw [if_pos h0]; exact ⟨_, rfl⟩
    · rw [if_neg h0]; exact ⟨_, rfl⟩

theorem avg_float_no_arithmetic_errors_witness :
    ((avgOriginal4Float64.UpdatePartialResult [.val 3, .null]
        (⟨0, 0⟩ : partialResult4AvgFloat64 Int)).2 = none) ∧
    ((avgPartial4Float64.UpdatePartialResult
        [(⟨.val 3, .val 1⟩ : MergeRow Int), ⟨.null, .null⟩]
        (⟨0, 0⟩ : partialResult4AvgFloat64 Int)).2 = none) ∧
    ((avgOriginal4DistinctFloat64.UpdatePartialResult [.val 3, .val 3]
        (⟨0, 0, newFloat64Set⟩ : partialResult4AvgDistinctFloat64 Int)).2 =
      none) ∧
    (∃ c, baseAvgFloat64.AppendFinalResult2Chunk 0
        (⟨0, 0⟩ : partialResult4AvgFloat64 Int) emptyIntChunk = .ok c) ∧
    (∃ c, avgOriginal4DistinctFloat64.AppendFinalResult2Chunk 0
        (⟨7, 2, newFloat64Set⟩ : partialResult4AvgDistinctFloat64 Int)
        emptyIntChunk = .ok c) :=
  ⟨avg_float_no_arithmetic_errors.1 Int [.val 3, .null] ⟨0, 0⟩
      (by intro e; simp),
    avg_float_no_arithmetic_errors.2.1 Int
      [⟨.val 3, .val 1⟩, ⟨.null, .null⟩] ⟨0, 0⟩
      (by intro r hr; simp at hr; rcases hr with h | h <;> subst h <;>
        exact ⟨fun e => by simp, fun e => by simp⟩),
    avg_float_no_arithmetic_errors.2.2.1 Int [.val 3, .val 3]
      ⟨0, 0, newFloat64Set⟩ (by intro e; simp),
    avg_float_no_arithmetic_errors.2.2.2.1 Int 0 ⟨0, 0⟩ emptyIntChunk,
    avg_float_no_arithmetic_errors.2.2.2.2 Int 0 ⟨7, 2, newFloat64Set⟩
      emptyIntChunk⟩

/-- Claim C10: per-row atomicity of the decimal add.  In each decimal
update variant, when the exact-decimal add for a row fails, the accumulator
returned is exactly the one from before that row: the sum is unchanged (the
add targets a scratch value committed only on success), the count is not
incremented, and the distinct variant's value set does not receive the
value. -/
theorem avg_decimal_add_failure_atomicity :
    (∀ (ov : MyDecimal → MyDecimal → Bool) (p : partialResult4AvgDecimal)
       (v : MyDecimal) (rest : List (EvalResult MyDecimal)),
      ov p.sum v = true →
      avgOriginal4Decimal.UpdatePartialResult ov (.val v :: rest) p =
        (p, some .decOverflow)) ∧
    (∀ (ov : MyDecimal → MyDecimal → Bool) (p : partialResult4AvgDecimal)
       (s : MyDecimal) (c : Int) (rest : List (MergeRow MyDecimal)),
      ov p.sum s = true →
      avgPartial4Decimal.UpdatePartialResult ov (⟨.val s, .val c⟩ :: rest) p =
        (p, some .decOverflow)) ∧
    (∀ (ov : MyDecimal → MyDecimal → Bool)
       (p : partialResult4AvgDistinctDecimal) (v : MyDecimal)
       (rest : List (EvalResult MyDecimal)),
      p.valSet.exist v = false → ov p.sum v = true →
      avgOriginal4DistinctDecimal.UpdatePartialResult ov (.val v :: rest) p =
        (p, some .decOverflow)) := by
  refine ⟨?_, ?_, ?_⟩
  · intro ov p v rest hov
    simp [avgOriginal4Decimal.UpdatePartialResult, DecimalAdd, hov]
  · intro ov p s c rest hov
    simp [avgPartial4Decimal.UpdatePartialResult, DecimalAdd, hov]
  · intro ov p v rest hex hov
    simp [avgOriginal4DistinctDecimal.UpdatePartialResult, hex, DecimalAdd, hov]

theorem avg_decimal_add_failure_atomicity_witness :
    (avgOriginal4Decimal.UpdatePartialResult ovAlways [.val ⟨7, 1⟩]
        ⟨⟨5, 0⟩, 2⟩ = (⟨⟨5, 0⟩, 2⟩, some .decOverflow)) ∧
    (avgPartial4Decimal.UpdatePartialResult ovAlways [⟨.val ⟨7, 1⟩, .val 3⟩]
        ⟨⟨5, 0⟩, 2⟩ = (⟨⟨5, 0⟩, 2⟩, some .decOverflow)) ∧
    (avgOriginal4DistinctDecimal.UpdatePartialResult ovAlways [.val ⟨7, 1⟩]
        ⟨⟨5, 0⟩, 2, newDecimalSet⟩ =
      (⟨⟨5, 0⟩, 2, newDecimalSet⟩, some .decOverflow)) :=
  ⟨avg_decimal_add_failure_atomicity.1 ovAlways ⟨⟨5, 0⟩, 2⟩ ⟨7, 1⟩ [] rfl,
    avg_decimal_add_failure_atomicity.2.1 ovAlways ⟨⟨5, 0⟩, 2⟩ ⟨7, 1⟩ 3 [] rfl,
    avg_decimal_add_failure_atomicity.2.2 ovAlways ⟨⟨5, 0⟩, 2, newDecimalSet⟩
      ⟨7, 1⟩ [] rfl rfl⟩
